import Mathlib

/-!
Verification development for the Polymarket analyst agent backend
(`backend/app/polymarket_client.py`, `backend/app/memory.py`,
`backend/app/tool_planner.py`, `backend/app/agent_routes.py`).

The Python code is shallowly embedded:
* JSON / Python values are modelled by the inductive `PyVal`; Python floats
  are modelled as exact rationals (every IEEE double is a rational, and all
  concrete values appearing in claims have exact decimal denotations).
* Python exceptions are modelled by `Except PyErr _`; a function that cannot
  raise is embedded as a total function.
* HTTP calls are modelled by passing the upstream `HttpResponse` (status code
  plus parse outcome of the body) as an explicit argument.
-/

/-- Python exceptions that the embedded code can raise.
`polymarketAPIError` carries the formatted message of
`PolymarketAPIError(...)` from `polymarket_client.py`. -/
inductive PyErr where
  | typeError
  | attributeError
  | keyError
  | valueError
  | indexError
  | polymarketAPIError (msg : String)
deriving Repr, DecidableEq

/-- Model of Python/JSON values as they occur in this code base: `None`,
booleans, ints, floats (as exact rationals), strings, lists, and
string-keyed dicts (JSON objects; key order is insertion order). -/
inductive PyVal where
  | none
  | bool (b : Bool)
  | int (n : ℤ)
  | float (q : ℚ)
  | str (s : String)
  | list (xs : List PyVal)
  | dict (kvs : List (String × PyVal))

/-- Python truthiness (`bool(v)` / `if v:`) for the modelled values. -/
def pyTruthy : PyVal → Bool
  | .none => false
  | .bool b => b
  | .int n => n ≠ 0
  | .float q => q ≠ 0
  | .str s => s ≠ ""
  | .list xs => ¬ xs.isEmpty
  | .dict kvs => ¬ kvs.isEmpty

/-- `d.get(k)` on a dict: first binding for `k`, Python `None` when absent
(keys of parsed JSON objects are unique). -/
def pyGet (kvs : List (String × PyVal)) (k : String) : PyVal :=
  match kvs.lookup k with
  | some v => v
  | Option.none => .none

/-- `d.get(k, default)` on a dict. -/
def pyGetD (kvs : List (String × PyVal)) (k : String) (dflt : PyVal) : PyVal :=
  match kvs.lookup k with
  | some v => v
  | Option.none => dflt

/-- Python `a or b` (returns `a` when truthy, else `b`). -/
def pyOr (a b : PyVal) : PyVal :=
  if pyTruthy a then a else b

/-- Exponent of prime `p` in `n` (used to detect terminating decimal
expansions of rationals when rendering Python floats). -/
def pExp (p n : ℕ) : ℕ :=
  if h : 2 ≤ p ∧ 0 < n ∧ n % p = 0 then pExp p (n / p) + 1 else 0
termination_by n
decreasing_by
  exact Nat.div_lt_self h.2.1 (by omega)

/-- Decimal rendering of a nonnegative rational with exactly `k` fractional
digits (no rounding; callers ensure `10^k * num` is divisible by `den`). -/
def decWithDigits (num den k : ℕ) : String :=
  let scaled := num * 10 ^ k / den
  let ip := scaled / 10 ^ k
  let fp := scaled % 10 ^ k
  let fpStr := toString fp
  let fpPad := String.mk (List.replicate (k - fpStr.length) '0') ++ fpStr
  -- strip trailing zeros but keep at least one fractional digit
  let trimmed := String.mk (fpPad.data.reverse.dropWhile (· = '0')).reverse
  let frac := if trimmed = "" then "0" else trimmed
  toString ip ++ "." ++ frac

/-- `str(f)` for a Python float modelled as a rational: terminating decimal
expansion when it exists (always the case for IEEE doubles), fraction
notation as a fallback for other rationals. -/
def qRepr (q : ℚ) : String :=
  let sign := if q < 0 then "-" else ""
  let n := q.num.natAbs
  let d := q.den
  if d = 1 then sign ++ toString n ++ ".0"
  else
    let k := max (pExp 2 d) (pExp 5 d)
    if d = 2 ^ pExp 2 d * 5 ^ pExp 5 d then sign ++ decWithDigits n d k
    else sign ++ toString n ++ "/" ++ toString d

mutual
/-- Python `str(v)` for the modelled values. -/
def pyStr : PyVal → String
  | .none => "None"
  | .bool b => if b then "True" else "False"
  | .int n => toString n
  | .float q => qRepr q
  | .str s => s
  | .list xs => "[" ++ String.intercalate ", " (pyReprList xs) ++ "]"
  | .dict kvs => "\x7b" ++ String.intercalate ", " (pyReprDict kvs) ++ "\x7d"

/-- Python `repr(v)` (as used when containers are stringified); string
quoting is simplified to single quotes. -/
def pyRepr : PyVal → String
  | .str s => "'" ++ s ++ "'"
  | v => pyStr v

/-- `repr` of each element of a list. -/
def pyReprList : List PyVal → List String
  | [] => []
  | v :: vs => pyRepr v :: pyReprList vs

/-- `'key': repr(value)` rendering of dict items. -/
def pyReprDict : List (String × PyVal) → List String
  | [] => []
  | (k, v) :: kvs => ("'" ++ k ++ "': " ++ pyRepr v) :: pyReprDict kvs
end

/-! ## `polymarket_client.py`: defensive conversion helpers -/

/-- Python `float(s)` on a string: optional sign, digits with an optional
decimal point (scientific notation and `inf`/`nan` are outside this model);
`Option.none` models the `ValueError` for non-numeric strings. -/
def parsePyFloat (s : String) : Option ℚ :=
  let t := s.trim
  let (sign, body) :=
    match t.data with
    | '-' :: rest => ((-1 : ℚ), rest)
    | '+' :: rest => ((1 : ℚ), rest)
    | l => ((1 : ℚ), l)
  let intPart := body.takeWhile (·.isDigit)
  let rest := body.drop intPart.length
  match rest with
  | [] =>
    if intPart.isEmpty then Option.none
    else some (sign * (Nat.ofDigits 10 (intPart.map (·.toNat - '0'.toNat)).reverse : ℕ))
  | '.' :: fracPart =>
    if fracPart.all (·.isDigit) ∧ ¬ (intPart.isEmpty ∧ fracPart.isEmpty) then
      let ip : ℕ := Nat.ofDigits 10 (intPart.map (·.toNat - '0'.toNat)).reverse
      let fp : ℕ := Nat.ofDigits 10 (fracPart.map (·.toNat - '0'.toNat)).reverse
      some (sign * ((ip : ℚ) + (fp : ℚ) / (10 ^ fracPart.length : ℕ)))
    else Option.none
  | _ => Option.none

/-- `_safe_str` from `polymarket_client.py`: `""` for `None`, `str(val)`
otherwise (the `try` never fires for the modelled values). -/
def _safe_str (val : PyVal) : String :=
  match val with
  | .none => ""
  | v => pyStr v

/-- `_safe_float` from `polymarket_client.py`: numbers pass through
(`isinstance(val, (int, float))` also matches Python bools), strings are
parsed with `float(...)` falling back to `0.0`, everything else is `0.0`. -/
def _safe_float (val : PyVal) : ℚ :=
  match val with
  | .bool b => if b then 1 else 0
  | .int n => n
  | .float q => q
  | .str s => (parsePyFloat s).getD 0
  | _ => 0

/-- The normalized `Market` record produced by `_normalize_market`
(exactly the fields of the dict literal in `polymarket_client.py`). -/
structure Market where
  id : String
  question : String
  conditionId : String
  slug : String
  category : String
  liquidity : ℚ
  volume : ℚ
  startDate : String
  endDate : String
  active : Bool
  closed : Bool
deriving Repr, DecidableEq

/-- `_normalize_market` from `polymarket_client.py`. -/
def _normalize_market (m : List (String × PyVal)) : Market where
  id := _safe_str (pyGet m "id")
  question := _safe_str (pyOr (pyGet m "question") (pyGet m "title"))
  conditionId := _safe_str (pyGet m "conditionId")
  slug := _safe_str (pyGet m "slug")
  category := _safe_str (pyGet m "category")
  liquidity := _safe_float (pyOr (pyGet m "liquidityNum") (pyGet m "liquidity"))
  volume := _safe_float (pyOr (pyGet m "volumeNum") (pyGet m "volume"))
  startDate := _safe_str (pyOr (pyGet m "startDate") (pyGet m "startDateIso"))
  endDate := _safe_str (pyOr (pyGet m "endDate") (pyGet m "endDateIso"))
  active := pyTruthy (pyGetD m "active" (.bool false))
  closed := pyTruthy (pyGetD m "closed" (.bool false))

/-- The dict entries of a value, when it is a dict (`isinstance(x, dict)`). -/
def asDict : PyVal → Option (List (String × PyVal))
  | .dict kvs => some kvs
  | _ => Option.none

/-- The body of `get_markets_normalized` from `polymarket_client.py`,
applied to the parsed upstream payload.  A bare list keeps its dict
entries; a dict is unwrapped through `raw.get("data") or raw.get("markets")
or []` (Python `or`), a dict result of the unwrap becomes a singleton list;
iterating a non-iterable unwrap result raises `TypeError` (iterating a
string or a dict yields no dict entries); any other payload yields `[]`. -/
def get_markets_normalized_core (raw : PyVal) : Except PyErr (List Market) :=
  match raw with
  | .list xs => .ok ((xs.filterMap asDict).map _normalize_market)
  | .dict kvs =>
    let unwrapped := pyOr (pyGet kvs "data") (pyOr (pyGet kvs "markets") (.list []))
    let unwrapped' := if (asDict unwrapped).isSome then PyVal.list [unwrapped] else unwrapped
    match unwrapped' with
    | .list xs => .ok ((xs.filterMap asDict).map _normalize_market)
    | .str _ => .ok []
    | _ => .error .typeError
  | _ => .ok []

/-! ## `polymarket_client.py`: HTTP layer -/

/-- Outcome of one upstream `requests.get`: the HTTP status code and the
parse outcome of the body (`Option.none` models an unparsable body, i.e.
`response.json()` raising). -/
structure HttpResponse where
  status_code : ℤ
  body : Option PyVal

def GAMMA_BASE_URL : String := "https://gamma-api.polymarket.com"
def DATA_BASE_URL : String := "https://data-api.polymarket.com"
def CLOB_BASE_URL : String := "https://clob.polymarket.com"

/-- `s.rstrip('/')`. -/
def rstripSlash (s : String) : String :=
  String.mk (s.data.reverse.dropWhile (· = '/')).reverse

/-- `s.lstrip('/')`. -/
def lstripSlash (s : String) : String :=
  String.mk (s.data.dropWhile (· = '/'))

/-- Percent-encoding of one character as in `urllib.parse.quote_plus`
(unreserved ASCII kept, space becomes `+`; multi-byte percent escapes of
non-ASCII characters are outside this model). -/
def quotePlusChar (c : Char) : String :=
  if c.isAlphanum ∨ c = '_' ∨ c = '.' ∨ c = '-' ∨ c = '~' then String.mk [c]
  else if c = ' ' then "+"
  else
    let n := c.toNat
    let hex := fun (d : ℕ) => if d < 10 then Char.ofNat ('0'.toNat + d) else Char.ofNat ('A'.toNat + d - 10)
    String.mk ['%', hex (n / 16 % 16), hex (n % 16)]

/-- `urllib.parse.urlencode` over string-valued parameters. -/
def urlencode (params : List (String × String)) : String :=
  String.intercalate "&"
    (params.map fun kv =>
      String.join (kv.1.data.map quotePlusChar) ++ "=" ++ String.join (kv.2.data.map quotePlusChar))

/-- `_request_json` from `polymarket_client.py`: raises
`PolymarketAPIError` for a non-200 status or an unparsable body, returns
the parsed JSON otherwise. -/
def _request_json (base_url path : String) (params : List (String × String))
    (response : HttpResponse) : Except PyErr PyVal :=
  let url := rstripSlash base_url ++ "/" ++ lstripSlash path
  if response.status_code ≠ 200 then
    .error (.polymarketAPIError ("HTTP " ++ toString response.status_code ++ " for " ++ url ++ "?" ++ urlencode params))
  else
    match response.body with
    | some v => .ok v
    | Option.none => .error (.polymarketAPIError ("Failed to parse JSON for " ++ url))

/-- `get_markets` from `polymarket_client.py`. -/
def get_markets (params : List (String × String)) (response : HttpResponse) : Except PyErr PyVal :=
  _request_json GAMMA_BASE_URL "/markets" params response

/-- `get_positions` from `polymarket_client.py`. -/
def get_positions (params : List (String × String)) (response : HttpResponse) : Except PyErr PyVal :=
  _request_json DATA_BASE_URL "/positions" params response

/-- `get_trades` from `polymarket_client.py`. -/
def get_trades (params : List (String × String)) (response : HttpResponse) : Except PyErr PyVal :=
  _request_json DATA_BASE_URL "/trades" params response

/-- `get_holders` from `polymarket_client.py`. -/
def get_holders (params : List (String × String)) (response : HttpResponse) : Except PyErr PyVal :=
  _request_json DATA_BASE_URL "/holders" params response

/-- `get_closed_positions` from `polymarket_client.py`. -/
def get_closed_positions (params : List (String × String)) (response : HttpResponse) : Except PyErr PyVal :=
  _request_json DATA_BASE_URL "/closed-positions" params response

/-- `get_order_book` from `polymarket_client.py`: a single `_request_json`
call against the CLOB API with no error handling of its own, so an
upstream failure raises `PolymarketAPIError`. -/
def get_order_book (condition_id : String) (response : HttpResponse) : Except PyErr PyVal :=
  _request_json CLOB_BASE_URL ("/markets/" ++ condition_id ++ "/orders") [] response

/-- `get_markets_normalized` from `polymarket_client.py`: fetch, then
normalize (the fetch may raise, the normalization step may raise
`TypeError` on a non-iterable envelope value). -/
def get_markets_normalized (params : List (String × String)) (response : HttpResponse) :
    Except PyErr (List Market) := do
  let raw ← get_markets params response
  get_markets_normalized_core raw

/-! ## `polymarket_client.py`: `get_top_holders` -/

/-- A raw holder entry as read by `get_top_holders`.  This is a typed view
of the holder dict: only the five fields the code reads are kept.
`outcomeIndex` is the numeric denotation of the field (Python `==`
identifies `1`, `1.0` and `True`); non-numeric values, which `== 1` and
`== 0` reject, are mapped to `Option.none` just like an absent field.
Entries whose `amount` is present but non-numeric (which could make
Python's sort raise `TypeError`) are outside this typed view. -/
structure RawHolder where
  proxyWallet : Option String
  name : Option String
  pseudonym : Option String
  amount : ℚ
  outcomeIndex : Option ℚ
deriving Repr, DecidableEq

/-- The `holders` field of one token entry of the raw `/holders` payload:
either absent (defaulted to `[]`), a list, or some non-list value (which
the `isinstance` guard skips). -/
inductive HoldersField where
  | notAList
  | ofList (hs : List RawHolder)
deriving Repr, DecidableEq

/-- One token entry of the raw `/holders` payload. -/
structure TokenEntry where
  holders : HoldersField
deriving Repr, DecidableEq

/-- The minimal holder dict built by `get_top_holders`. -/
structure TopHolder where
  address : Option String
  username : Option String
  amount : ℚ
deriving Repr, DecidableEq

/-- Truthiness of an optional string (Python: `None` and `""` are falsy). -/
def truthyStr : Option String → Bool
  | Option.none => false
  | some s => s ≠ ""

/-- The `minimal_holder` dict of `get_top_holders`
(`holder.get("name") or holder.get("pseudonym")` for the username). -/
def minimalHolder (h : RawHolder) : TopHolder where
  address := h.proxyWallet
  username := if truthyStr h.name then h.name else h.pseudonym
  amount := h.amount

/-- One iteration of the inner holder loop of `get_top_holders`: append
the holder's minimal dict to the `yes` bucket when `outcomeIndex == 1`,
to the `no` bucket when `outcomeIndex == 0`, drop it otherwise. -/
def holderStep (acc : List TopHolder × List TopHolder) (h : RawHolder) :
    List TopHolder × List TopHolder :=
  if h.outcomeIndex = some 1 then (acc.1 ++ [minimalHolder h], acc.2)
  else if h.outcomeIndex = some 0 then (acc.1, acc.2 ++ [minimalHolder h])
  else acc

/-- One iteration of the outer token loop of `get_top_holders`: a
non-list `holders` field is skipped by the `isinstance` guard. -/
def tokenStep (acc : List TopHolder × List TopHolder) (t : TokenEntry) :
    List TopHolder × List TopHolder :=
  match t.holders with
  | .notAList => acc
  | .ofList hs => hs.foldl holderStep acc

/-- The bucket loop of `get_top_holders`: flatten all token entries whose
`holders` field is a list, appending each holder's minimal dict to the
`yes` bucket when `outcomeIndex == 1` and to the `no` bucket when
`outcomeIndex == 0` (anything else is dropped). -/
def collectHolders (tokens : List TokenEntry) : List TopHolder × List TopHolder :=
  tokens.foldl tokenStep ([], [])

/-- Python's `list.sort(key=key, reverse=True)`: a stable sort, descending
by `key`.  Insertion sort with the relation `key b ≤ key a` computes
exactly that list (ties keep their original relative order). -/
def sortDescBy (key : α → ℚ) (xs : List α) : List α :=
  List.insertionSort (fun a b => key b ≤ key a) xs

/-- Python's `sorted(xs, key=key)`: a stable sort, ascending by `key`. -/
def sortAscBy (key : α → ℚ) (xs : List α) : List α :=
  List.insertionSort (fun a b => key a ≤ key b) xs

/-- Result shape of `get_top_holders`. -/
structure HoldersOut where
  yes : List TopHolder
  no : List TopHolder
deriving Repr, DecidableEq

/-- The raw `/holders` payload: the code returns empty buckets unless the
payload is a list of token entries. -/
inductive HoldersPayload where
  | notAList
  | ofList (tokens : List TokenEntry)
deriving Repr, DecidableEq

/-- The aggregation body of `get_top_holders` from `polymarket_client.py`
(applied to the parsed `/holders` payload): flatten, partition by
`outcomeIndex`, sort each bucket by `amount` descending (stable), truncate
to 5. -/
def get_top_holders_core (payload : HoldersPayload) : HoldersOut :=
  match payload with
  | .notAList => ⟨[], []⟩
  | .ofList tokens =>
    let buckets := collectHolders tokens
    ⟨(sortDescBy (·.amount) buckets.1).take 5, (sortDescBy (·.amount) buckets.2).take 5⟩

/-! ## `polymarket_client.py`: `get_top_traders_by_pnl` -/

/-- A raw position entry as read by `get_top_traders_by_pnl`: the typed
view keeps the five fields the code reads.  `cashPnl` is the numeric
denotation of the field, defaulting to `0` when absent (a present
non-numeric `cashPnl` would raise `TypeError` at the `+=` and is outside
this typed view); `proxyWallet` is kept when it is a string. -/
structure RawPosition where
  proxyWallet : Option String
  cashPnl : ℚ
  title : Option String
  name : Option String
  pseudonym : Option String
deriving Repr, DecidableEq

/-- The effective trader address of a position: `pos.get("proxyWallet")`
with the `if not address: continue` truthiness guard applied. -/
def effAddr (p : RawPosition) : Option String :=
  match p.proxyWallet with
  | some s => if s = "" then Option.none else some s
  | Option.none => Option.none

/-- `pos.get("name") or pos.get("pseudonym")`. -/
def posUsername (p : RawPosition) : Option String :=
  if truthyStr p.name then p.name else p.pseudonym

/-- The per-trader accumulator of `get_top_traders_by_pnl`
(`max_pnl = -float('inf')` is modelled by `Option.none`, which every
finite pnl strictly exceeds). -/
structure TraderAcc where
  total_pnl : ℚ
  most_profitable_market : Option String
  max_pnl : Option ℚ
  username : Option String
deriving Repr, DecidableEq

/-- The fresh accumulator produced by the `defaultdict` factory. -/
def emptyAcc : TraderAcc := ⟨0, Option.none, Option.none, Option.none⟩

/-- One loop iteration of `get_top_traders_by_pnl` on the accumulator of
the position's trader: add the pnl, adopt the username if none is stored
yet, and track the strict running maximum pnl and its market title. -/
def stepAcc (d : TraderAcc) (p : RawPosition) : TraderAcc :=
  let d1 := { d with total_pnl := d.total_pnl + p.cashPnl }
  let d2 :=
    if ¬ truthyStr d1.username ∧ truthyStr (posUsername p) then
      { d1 with username := posUsername p }
    else d1
  match d2.max_pnl with
  | Option.none => { d2 with max_pnl := some p.cashPnl, most_profitable_market := p.title }
  | some m =>
    if p.cashPnl > m then { d2 with max_pnl := some p.cashPnl, most_profitable_market := p.title }
    else d2

/-- Update the (insertion-ordered) association list of per-trader
accumulators at address `a` — existing entry updated in place, new
entry appended (this is `defaultdict` access order in Python ≥ 3.7). -/
def bumpAcc (acc : List (String × TraderAcc)) (a : String) (p : RawPosition) :
    List (String × TraderAcc) :=
  match acc with
  | [] => [(a, stepAcc emptyAcc p)]
  | (k, d) :: rest =>
    if k = a then (k, stepAcc d p) :: rest else (k, d) :: bumpAcc rest a p

/-- One iteration of the grouping loop of `get_top_traders_by_pnl`:
positions without a truthy `proxyWallet` are skipped, all others update
their trader's accumulator. -/
def posStep (acc : List (String × TraderAcc)) (p : RawPosition) : List (String × TraderAcc) :=
  match effAddr p with
  | Option.none => acc
  | some a => bumpAcc acc a p

/-- The grouping loop of `get_top_traders_by_pnl`. -/
def aggregatePositions (ps : List RawPosition) : List (String × TraderAcc) :=
  ps.foldl posStep []

/-- One summary entry of `get_top_traders_by_pnl`. -/
structure TraderAgg where
  address : String
  username : Option String
  total_pnl : ℚ
  most_profitable_market : Option String
deriving Repr, DecidableEq

/-- The raw `/positions` payload for `get_top_traders_by_pnl`: the code
returns `[]` unless the payload is a list. -/
inductive PositionsPayload where
  | notAList
  | ofList (ps : List RawPosition)
deriving Repr, DecidableEq

/-- The summary list of `get_top_traders_by_pnl` before sorting, in
trader first-encounter order. -/
def traderSummary (ps : List RawPosition) : List TraderAgg :=
  (aggregatePositions ps).map fun kd =>
    ⟨kd.1, kd.2.username, kd.2.total_pnl, kd.2.most_profitable_market⟩

/-- The aggregation body of `get_top_traders_by_pnl` from
`polymarket_client.py` (applied to the parsed `/positions` payload):
group by trader, then stable-sort by summed pnl descending and keep the
top 5. -/
def get_top_traders_core (payload : PositionsPayload) : List TraderAgg :=
  match payload with
  | .notAList => []
  | .ofList ps => (sortDescBy (·.total_pnl) (traderSummary ps)).take 5

/-! ## `memory.py`: the session context store -/

/-- A session context record: a Python dict from field name to value,
in insertion order. -/
abbrev Ctx := List (String × PyVal)

/-- `SESSION_MEMORY`: a dict from session id to context record, in
insertion order. -/
abbrev Store := List (String × Ctx)

/-- `d[k] = v` on a dict: replace the existing binding in place, or append
a new one. -/
def pySetItem (d : Ctx) (k : String) (v : PyVal) : Ctx :=
  match d with
  | [] => [(k, v)]
  | (k', v') :: rest => if k' = k then (k', v) :: rest else (k', v') :: pySetItem rest k v

/-- `d.update(u)` on a dict: replace-by-key merge, left to right over `u`. -/
def pyDictUpdate (d u : Ctx) : Ctx :=
  u.foldl (fun acc kv => pySetItem acc kv.1 kv.2) d

/-- Replace the context stored under an existing session id. -/
def storeSet (store : Store) (sid : String) (c : Ctx) : Store :=
  match store with
  | [] => [(sid, c)]
  | (k, c') :: rest => if k = sid then (k, c) :: rest else (k, c') :: storeSet rest sid c

/-- `get_session_context` from `memory.py`: create an empty record on
first reference, then return the stored record. -/
def get_session_context (store : Store) (sid : String) : Ctx × Store :=
  match store.lookup sid with
  | some c => (c, store)
  | Option.none => ([], store ++ [(sid, [])])

/-- `update_session_context` from `memory.py`: create the record if
absent, then `record.update(updates)`. -/
def update_session_context (store : Store) (sid : String) (updates : Ctx) : Store :=
  match store.lookup sid with
  | some c => storeSet store sid (pyDictUpdate c updates)
  | Option.none => store ++ [(sid, pyDictUpdate [] updates)]

/-- `clear_session_context` from `memory.py`: `del SESSION_MEMORY[sid]`
when present. -/
def clear_session_context (store : Store) (sid : String) : Store :=
  store.filter (fun kv => kv.1 ≠ sid)

/-! ## `tool_planner.py`: plan extraction from the model response -/

/-- The decoded `arguments` JSON string of a tool call: either malformed
JSON (`json.loads` raises `json.JSONDecodeError` in `agent_routes.py`) or
the parsed object.  The planner's sentinel uses the literal `"{}"`, which
parses to the empty object. -/
inductive ArgsRepr where
  | invalid
  | parsed (fields : Ctx)

/-- The `function` member of a tool call (`function.get("name")`,
`function.get("arguments", "{}")`). -/
structure FuncBody where
  name : Option String
  arguments : Option ArgsRepr

/-- One tool call of the model response (`tool_call.get("function", {})`). -/
structure ToolCall where
  function : Option FuncBody

/-- The `tool_calls` member of the response message: absent key, JSON
null, or a list of tool calls. -/
inductive TCField where
  | absent
  | null
  | calls (l : List ToolCall)

/-- The `message` member of the first choice.  `hasOtherKeys` records
whether the message dict carries any key other than `tool_calls` (this is
what makes the dict truthy for the `if not choice` test). -/
structure MsgBody where
  tool_calls : TCField
  hasOtherKeys : Bool

/-- One entry of `choices` (`.get("message", {})`). -/
structure ModelChoice where
  message : Option MsgBody

/-- A chat-completion response as read by `plan_with_tools`
(`response.get("choices", [{}])`). -/
structure ModelResp where
  choices : Option (List ModelChoice)

/-- Truthiness of a message dict. -/
def msgTruthy (m : MsgBody) : Bool :=
  (match m.tool_calls with | .absent => false | _ => true) || m.hasOtherKeys

/-- The sentinel tool call synthesized by `plan_with_tools` when the model
returns no function call: `{"function": {"name": "unsupported",
"arguments": "{}"}}`. -/
def unsupportedSentinel : ToolCall :=
  ⟨some ⟨some "unsupported", some (.parsed [])⟩⟩

/-- The response handling of `plan_with_tools` from `tool_planner.py`
(the model transport itself is external): read
`response.get("choices", [{}])[0].get("message", {})`; if that message is
falsy or has no `tool_calls` key, return the sentinel list, otherwise
return the raw `tool_calls` value (`Option.none` models a JSON-null
`tool_calls`; an empty `choices` list raises `IndexError` at `[0]`). -/
def planFromResponse (r : ModelResp) : Except PyErr (Option (List ToolCall)) :=
  match r.choices with
  | Option.none => .ok (some [unsupportedSentinel])
  | some [] => .error .indexError
  | some (c :: _) =>
    match c.message with
    | Option.none => .ok (some [unsupportedSentinel])
    | some msg =>
      if ¬ msgTruthy msg then .ok (some [unsupportedSentinel])
      else
        match msg.tool_calls with
        | .absent => .ok (some [unsupportedSentinel])
        | .null => .ok Option.none
        | .calls l => .ok (some l)

/-! ## `agent_routes.py`: dynamic value operations used by the formatters -/

/-- Numeric denotation of a value (Python `bool` is a subtype of `int`). -/
def pyNum? : PyVal → Option ℚ
  | .bool b => some (if b then 1 else 0)
  | .int n => some (n : ℚ)
  | .float q => some q
  | _ => Option.none

mutual
/-- Python `==` on the modelled values (numeric types compare by value;
dicts are compared pairwise in insertion order, a simplification that the
embedded code never exercises on reordered dicts). -/
def pyValEq (a b : PyVal) : Bool :=
  match a, b with
  | .none, .none => true
  | .str s, .str t => s == t
  | .list xs, .list ys => pyValEqList xs ys
  | .dict xs, .dict ys => pyValEqPairs xs ys
  | x, y =>
    match pyNum? x, pyNum? y with
    | some p, some q => p == q
    | _, _ => false

/-- Elementwise `==` on lists. -/
def pyValEqList : List PyVal → List PyVal → Bool
  | [], [] => true
  | x :: xs, y :: ys => pyValEq x y && pyValEqList xs ys
  | _, _ => false

/-- Pairwise `==` on dict items. -/
def pyValEqPairs : List (String × PyVal) → List (String × PyVal) → Bool
  | [], [] => true
  | (k, v) :: xs, (k', v') :: ys => k == k' && pyValEq v v' && pyValEqPairs xs ys
  | _, _ => false
end

/-- Substring test (`needle in s` for strings). -/
def containsSubstring (s needle : String) : Bool :=
  (s.splitOn needle).length > 1

/-- Python `needle in v` for a string needle: key membership on dicts,
`==`-membership on lists, substring test on strings, `TypeError`
otherwise. -/
def pyContains (v : PyVal) (needle : String) : Except PyErr Bool :=
  match v with
  | .dict kvs => .ok (kvs.any (fun kv => kv.1 == needle))
  | .list xs => .ok (xs.any (fun x => pyValEq x (.str needle)))
  | .str s => .ok (containsSubstring s needle)
  | _ => .error .typeError

/-- `v.get(k)`: dict lookup returning `None` when absent; `AttributeError`
when `v` is not a dict. -/
def pyDotGet (v : PyVal) (k : String) : Except PyErr PyVal :=
  match v with
  | .dict kvs => .ok (pyGet kvs k)
  | _ => .error .attributeError

/-- `v.get(k, dflt)`: dict lookup with default; `AttributeError` when `v`
is not a dict. -/
def pyDotGetD (v : PyVal) (k : String) (dflt : PyVal) : Except PyErr PyVal :=
  match v with
  | .dict kvs => .ok (pyGetD kvs k dflt)
  | _ => .error .attributeError

/-- `v[k]` for a string key: `KeyError` when absent, `TypeError` when `v`
is not a dict. -/
def pySubscript (v : PyVal) (k : String) : Except PyErr PyVal :=
  match v with
  | .dict kvs =>
    match kvs.lookup k with
    | some x => .ok x
    | Option.none => .error .keyError
  | _ => .error .typeError

/-- Python iteration over a value: lists yield elements, strings yield
characters, dicts yield keys; everything else raises `TypeError`. -/
def pyIterate : PyVal → Except PyErr (List PyVal)
  | .list xs => .ok xs
  | .str s => .ok (s.data.map (fun c => .str (String.mk [c])))
  | .dict kvs => .ok (kvs.map (fun kv => .str kv.1))
  | _ => .error .typeError

/-- Python `float(v)`: numbers pass through, strings are parsed
(`ValueError` on failure), everything else raises `TypeError`. -/
def pyFloat : PyVal → Except PyErr ℚ
  | .bool b => .ok (if b then 1 else 0)
  | .int n => .ok (n : ℚ)
  | .float q => .ok q
  | .str s =>
    match parsePyFloat s with
    | some q => .ok q
    | Option.none => .error .valueError
  | _ => .error .typeError

/-! ## Python number formatting (`:.2f` and `:,.2f`) -/

/-- Round to the nearest integer, ties to even (Python float formatting). -/
def roundHalfEven (q : ℚ) : ℤ :=
  let f := ⌊q⌋
  let r := q - f
  if r < 1 / 2 then f
  else if 1 / 2 < r then f + 1
  else if f % 2 = 0 then f else f + 1

/-- Two-digit zero-padded rendering of a number below 100. -/
def twoDigits (n : ℕ) : String :=
  (if n < 10 then "0" else "") ++ toString n

/-- Python `f"{x:.2f}"` on the rational model of a float. -/
def formatFix2 (q : ℚ) : String :=
  let n := roundHalfEven (q * 100)
  let a := n.natAbs
  (if n < 0 then "-" else "") ++ toString (a / 100) ++ "." ++ twoDigits (a % 100)

/-- Insert a thousands separator after every third digit of a reversed
digit list. -/
def addCommasRev : List Char → ℕ → List Char
  | [], _ => []
  | c :: cs, i =>
    if i ≠ 0 ∧ i % 3 = 0 then ',' :: c :: addCommasRev cs (i + 1)
    else c :: addCommasRev cs (i + 1)

/-- Digit grouping of a natural number (`1234567 ↦ "1,234,567"`). -/
def groupThousands (n : ℕ) : String :=
  String.mk (addCommasRev (toString n).data.reverse 0).reverse

/-- Python `f"{x:,.2f}"` on the rational model of a float. -/
def formatComma2 (q : ℚ) : String :=
  let n := roundHalfEven (q * 100)
  let a := n.natAbs
  (if n < 0 then "-" else "") ++ groupThousands (a / 100) ++ "." ++ twoDigits (a % 100)

/-! ## `agent_routes.py`: `_format_order_book_text` -/

/-- The sort key of `_format_order_book_text`:
`float(x.get('price', 0))` (raising on a non-dict entry or a non-numeric
price). -/
def priceOf (x : PyVal) : Except PyErr ℚ := do
  pyFloat (← pyDotGetD x "price" (.int 0))

/-- The sort keys of a bid/ask list, paired with the entries, in order
(Python's `sorted(..., key=...)` computes every key before sorting and
propagates the first key exception). -/
def keyedPrices : List PyVal → Except PyErr (List (ℚ × PyVal))
  | [] => .ok []
  | x :: xs => do
    let q ← priceOf x
    let rest ← keyedPrices xs
    pure ((q, x) :: rest)

/-- The bid/ask sort of `_format_order_book_text`:
`sorted(xs, key=lambda x: float(x.get('price', 0)), reverse=desc)`.
Python's sort is stable, so the result is insertion sort by the
precomputed key. -/
def sortOrdersBy (desc : Bool) (xs : List PyVal) : Except PyErr (List PyVal) := do
  let keyed ← keyedPrices xs
  pure ((if desc then sortDescBy (·.1) keyed else sortAscBy (·.1) keyed).map (·.2))

/-- One rendered order line:
`f"    - \x60${price:.2f}\x60 | \x60{size:.2f}\x60"`. -/
def renderOrder (o : PyVal) : Except PyErr String := do
  let p ← pyFloat (← pyDotGetD o "price" (.int 0))
  let s ← pyFloat (← pyDotGetD o "size" (.int 0))
  pure ("    - `$" ++ formatFix2 p ++ "` | `" ++ formatFix2 s ++ "`")

/-- The rendered lines of the first five orders. -/
def renderOrders (os : List PyVal) : Except PyErr (List String) :=
  (os.take 5).mapM renderOrder

/-- The per-outcome body of the `for outcome in ["yes", "no"]` loop of
`_format_order_book_text` (everything after the outcome header line):
an `error` key short-circuits the side; otherwise market / tick size /
min order size lines, then bids sorted descending and asks sorted
ascending by price, each truncated to five rendered lines. -/
def formatBookSide (book : PyVal) : Except PyErr (List String) := do
  if (← pyContains book "error") then
    return ["  - " ++ pyStr (← pySubscript book "error")]
  let l1 := "  - **Market:** `" ++ pyStr (← pyDotGet book "market") ++ "`"
  let l2 := "  - **Tick Size:** " ++ pyStr (← pyDotGet book "tick_size")
  let l3 := "  - **Min Order Size:** " ++ pyStr (← pyDotGet book "min_order_size")
  let bids ← sortOrdersBy true (← pyIterate (← pyDotGetD book "bids" (.list [])))
  let bidLines ← renderOrders bids
  let asks ← sortOrdersBy false (← pyIterate (← pyDotGetD book "asks" (.list [])))
  let askLines ← renderOrders asks
  return [l1, l2, l3, "\n  **ðŸŸ¢ Bids (Price | Size):**"]
    ++ (if bids.isEmpty then ["    - No bids"] else [])
    ++ bidLines
    ++ ["\n  **ðŸ”´ Asks (Price | Size):**"]
    ++ (if asks.isEmpty then ["    - No asks"] else [])
    ++ askLines

/-- `_format_order_book_text` from `agent_routes.py`.  A falsy argument
yields the fixed unavailability sentence; a top-level `error` key is
returned verbatim (`return order_book.get("error")` returns the raw
value); otherwise the `yes` and `no` outcome sections are rendered and
joined with newlines. -/
def _format_order_book_text (order_book : PyVal) : Except PyErr PyVal := do
  if ¬ pyTruthy order_book then return .str "Order book data is not available."
  if (← pyContains order_book "error") then
    return (← pyDotGet order_book "error")
  let yesSide ← pyDotGetD order_book "yes" (.dict [])
  let yesLines ← formatBookSide yesSide
  let noSide ← pyDotGetD order_book "no" (.dict [])
  let noLines ← formatBookSide noSide
  return .str (String.intercalate "\n"
    (["**ðŸ“– Order Book Summary:**\n"]
      ++ ["**--- YES Outcome ---**"] ++ yesLines
      ++ ["**--- NO Outcome ---**"] ++ noLines))

/-! ## Typed views of the `/holders` and `/positions` payloads -/

/-- An optional-string view of a dynamic field (non-string values are
outside the typed holder/position views). -/
def viewOptStr : PyVal → Option String
  | .str s => some s
  | _ => Option.none

/-- Typed view of one holder dict (a non-dict entry raises
`AttributeError` at `holder.get`, a non-numeric `amount` is modelled as
`TypeError`, approximating the comparison error Python's sort would
raise). -/
def viewHolder : PyVal → Except PyErr RawHolder
  | .dict kvs => do
    let amount ←
      match pyNum? (pyGetD kvs "amount" (.int 0)) with
      | some q => Except.ok q
      | Option.none => Except.error .typeError
    pure
      { proxyWallet := viewOptStr (pyGet kvs "proxyWallet")
        name := viewOptStr (pyGet kvs "name")
        pseudonym := viewOptStr (pyGet kvs "pseudonym")
        amount := amount
        outcomeIndex := pyNum? (pyGet kvs "outcomeIndex") }
  | _ => .error .attributeError

/-- Typed view of one token entry of the `/holders` payload (a non-dict
entry raises `AttributeError` at `token_data.get`; a missing `holders`
field defaults to `[]`, a non-list one is skipped by the `isinstance`
guard). -/
def viewToken : PyVal → Except PyErr TokenEntry
  | .dict kvs =>
    match pyGetD kvs "holders" (.list []) with
    | .list hs => do pure ⟨.ofList (← hs.mapM viewHolder)⟩
    | _ => .ok ⟨.notAList⟩
  | _ => .error .attributeError

/-- Typed view of the whole `/holders` payload. -/
def viewHoldersPayload (raw : PyVal) : Except PyErr HoldersPayload :=
  match raw with
  | .list tokens => do pure (.ofList (← tokens.mapM viewToken))
  | _ => .ok .notAList

/-- Typed view of one position dict (a non-dict entry raises
`AttributeError` at `pos.get`; a present non-numeric `cashPnl` raises
`TypeError` at the `+=` — but only when the trader address is truthy,
since the loop skips the entry before touching the pnl otherwise). -/
def viewPosition : PyVal → Except PyErr RawPosition
  | .dict kvs => do
    let wallet := viewOptStr (pyGet kvs "proxyWallet")
    let pnl ←
      match pyNum? (pyGetD kvs "cashPnl" (.int 0)) with
      | some q => Except.ok q
      | Option.none =>
        if truthyStr wallet then Except.error .typeError else Except.ok 0
    pure
      { proxyWallet := wallet
        cashPnl := pnl
        title := viewOptStr (pyGet kvs "title")
        name := viewOptStr (pyGet kvs "name")
        pseudonym := viewOptStr (pyGet kvs "pseudonym") }
  | _ => .error .attributeError

/-- Typed view of the whole `/positions` payload. -/
def viewPositionsPayload (raw : PyVal) : Except PyErr PositionsPayload :=
  match raw with
  | .list ps => do pure (.ofList (← ps.mapM viewPosition))
  | _ => .ok .notAList

/-! ## Full client pipelines (fetch + aggregate) -/

/-- `get_top_holders` from `polymarket_client.py`: fetch `/holders` for
the market, then aggregate. -/
def get_top_holders (condition_id : PyVal) (response : HttpResponse) :
    Except PyErr HoldersOut := do
  let raw ← get_holders [("market", pyStr condition_id)] response
  let payload ← viewHoldersPayload raw
  pure (get_top_holders_core payload)

/-- `get_top_traders_by_pnl` from `polymarket_client.py`: fetch the fixed
page of 100 positions pre-sorted by upstream descending pnl, then
aggregate. -/
def get_top_traders_by_pnl (response : HttpResponse) : Except PyErr (List TraderAgg) := do
  let raw ← get_positions
    [("limit", "100"), ("sortBy", "CASHPNL"), ("sortDirection", "DESC")] response
  let payload ← viewPositionsPayload raw
  pure (get_top_traders_core payload)

/-- `get_trades_by_condition` from `polymarket_client.py`. -/
def get_trades_by_condition (condition_id : PyVal) (limit : PyVal) (response : HttpResponse) :
    Except PyErr PyVal :=
  get_trades
    [("limit", pyStr limit), ("filterType", "CASH"), ("conditionId", pyStr condition_id)]
    response

/-! ## `agent_routes.py`: deterministic result formatters -/

/-- `_format_markets_text` from `agent_routes.py`, on the normalized
market records (`market.get('yes_price', 0)` and `no_price` are always
absent after normalization, so both prices render as `$0.00`). -/
def _format_markets_text (markets : List Market) : String :=
  if markets.isEmpty then "No markets found."
  else
    let entries := (List.range markets.length).zip markets |>.map fun im =>
      let i := im.1 + 1
      let market := im.2
      "**" ++ toString i ++ ". " ++ market.question ++ "**\n"
        ++ "   - **Market ID:** `" ++ market.id ++ "`\n"
        ++ "   - **Condition ID:** `" ++ market.conditionId ++ "`\n"
        ++ "   - **Category:** " ++ market.category ++ "\n"
        ++ "   - **Volume:** $" ++ formatComma2 market.volume ++ " ðŸ’¹\n"
        ++ "   - **Liquidity:** $" ++ formatComma2 market.liquidity ++ " ðŸ’§\n"
        ++ "   - **Prices:** Yes: $" ++ formatFix2 0 ++ " | No: $" ++ formatFix2 0 ++ "\n"
        ++ "   - **Ends:** " ++ market.endDate ++ " â³\n"
    String.intercalate "\n" ("**ðŸ“Š Top Markets:**\n" :: entries)

/-- Rendering of an optional string the way an f-string renders the raw
dict value (`None` renders as `"None"`). -/
def optStrRender : Option String → String
  | some s => s
  | Option.none => "None"

/-- One holder line of `_format_top_holders_text` (the `username` and
`address` keys are always present in the minimal holder dict, so the
`'N/A'` defaults are never used and a `None` value renders as `None`). -/
def holderLine (h : TopHolder) : String :=
  "  - **User:** " ++ optStrRender h.username ++ " (`" ++ optStrRender h.address
    ++ "`) | **Amount:** " ++ formatFix2 h.amount

/-- `_format_top_holders_text` from `agent_routes.py`. -/
def _format_top_holders_text (top_holders : HoldersOut) : String :=
  if top_holders.yes.isEmpty ∧ top_holders.no.isEmpty then
    "No holder information available."
  else
    String.intercalate "\n"
      ("**ðŸ† Top Holders:**\n"
        :: "**ðŸ‘ Top 5 'Yes' Holders:**"
        :: (top_holders.yes.map holderLine
          ++ "\n**ðŸ‘Ž Top 5 'No' Holders:**"
          :: top_holders.no.map holderLine))

/-- `_format_top_traders_text` from `agent_routes.py`. -/
def _format_top_traders_text (traders : List TraderAgg) : String :=
  if traders.isEmpty then "No top trader information available."
  else
    let entries := (List.range traders.length).zip traders |>.map fun it =>
      let i := it.1 + 1
      let trader := it.2
      let username := if truthyStr trader.username then optStrRender trader.username else trader.address
      let pnl_emoji :=
        if trader.total_pnl > 0 then "ðŸš€" else "ðŸ“‰"
      ["**" ++ toString i ++ ". Trader: " ++ username ++ "**",
       "   - **Total PNL:** $" ++ formatComma2 trader.total_pnl ++ " " ++ pnl_emoji,
       "   - **Most Profitable Market:** '" ++ optStrRender trader.most_profitable_market ++ "'"]
    String.intercalate "\n" ("**ðŸ¥‡ Top 5 Traders by PNL:**\n" :: entries.flatten)

/-- `_format_closed_positions_text` from `agent_routes.py`, over the raw
(unnormalized) closed-positions payload: a falsy payload yields the fixed
sentence, a non-numeric `realizedPnl` raises `TypeError` at the `pnl > 0`
comparison, every other field access defaults. -/
def _format_closed_positions_text (positions : PyVal) : Except PyErr String := do
  if ¬ pyTruthy positions then return "No closed positions found for this trader."
  let items ← pyIterate positions
  let lines ← items.mapM fun pos => do
    let pnlV ← pyDotGetD pos "realizedPnl" (.int 0)
    let pnl ←
      match pyNum? pnlV with
      | some q => Except.ok q
      | Option.none => Except.error .typeError
    let pnl_emoji :=
      if pnl > 0 then "ðŸŸ¢"
      else if pnl < 0 then "ðŸ”´"
      else "âšª"
    let title ← pyDotGetD pos "title" (.str "N/A")
    let cid ← pyDotGet pos "conditionId"
    pure ("- **Market:** '" ++ pyStr title ++ "'\n"
      ++ "  - **Condition ID:** `" ++ pyStr cid ++ "`\n"
      ++ "  - **Realized PNL:** $" ++ formatComma2 pnl ++ " " ++ pnl_emoji ++ "\n")
  return String.intercalate "\n" ("**ðŸ“œ Closed Positions & PNL:**\n" :: lines)

/-! ## `agent_routes.py`: the tool executor and the `/agent/ask` handler -/

/-- Observable side effects of one request: upstream HTTP GETs (by path)
and chat-completion model calls. -/
inductive Effect where
  | httpGet (path : String)
  | modelCall
deriving Repr, DecidableEq

/-- The environment of one request: the upstream responses each data call
would receive, and the outcome of the secondary AI-summary model call
(`Except.error` models a transport failure of `asi_chat`). -/
structure UpstreamEnv where
  marketsResp : HttpResponse
  tradesResp : HttpResponse
  positionsResp : HttpResponse
  holdersResp : HttpResponse
  closedResp : HttpResponse
  orderBookResp : HttpResponse
  aiResp : Except Unit PyVal

/-- Modelled from the spec: `get_closed_positions_for_user` is imported by
`agent_routes.py` from `polymarket_client.py` but is not defined there
(only `get_closed_positions` exists — claim C9).  Per the Tool Catalog
description ("closed positions for a specific trader") and the
closed-positions wrapper it is modelled as the `/closed-positions` fetch
keyed by the user address. -/
def get_closed_positions_for_user (address : PyVal) (response : HttpResponse) :
    Except PyErr PyVal :=
  get_closed_positions [("user", pyStr address)] response

/-- `summarize_trader_details` from `polymarket_client.py`: three
sequential best-effort-free upstream calls joined into one dict (an
exception in any call propagates). -/
def summarize_trader_details (env : UpstreamEnv) (address : PyVal) : Except PyErr PyVal := do
  let positions ← get_positions [("user", pyStr address)] env.positionsResp
  let trades ← get_trades [("user", pyStr address)] env.tradesResp
  let closed ← get_closed_positions [("user", pyStr address)] env.closedResp
  pure (.dict [("address", address), ("positions", positions), ("trades", trades),
    ("closed_positions", closed)])

/-- The upstream calls actually performed by `summarize_trader_details`
(a failing call stops the sequence). -/
def traderDetailsEffects (env : UpstreamEnv) (address : PyVal) : List Effect :=
  match get_positions [("user", pyStr address)] env.positionsResp with
  | .error _ => [.httpGet "/positions"]
  | .ok _ =>
    match get_trades [("user", pyStr address)] env.tradesResp with
    | .error _ => [.httpGet "/positions", .httpGet "/trades"]
    | .ok _ => [.httpGet "/positions", .httpGet "/trades", .httpGet "/closed-positions"]

/-- `_summarize_trader_with_ai` from `agent_routes.py`: a falsy details
dict yields the fixed sentence without a model call; otherwise the model
response content is extracted with defaults, and any exception (including
a transport failure) degrades to the fixed error sentence. -/
def _summarize_trader_with_ai (aiResp : Except Unit PyVal) (details : PyVal) : String :=
  if ¬ pyTruthy details then "Not enough data to generate a summary."
  else
    let attempt : Except PyErr String := do
      let resp ← match aiResp with
        | .ok v => Except.ok v
        | .error _ => Except.error PyErr.typeError
      let cs ← pyDotGetD resp "choices" (.list [.dict []])
      let first ← match cs with
        | .list [] => Except.error PyErr.indexError
        | .list (x :: _) => Except.ok x
        | _ => Except.error PyErr.typeError
      let msg ← pyDotGetD first "message" (.dict [])
      let content ← pyDotGetD msg "content" (.str "Could not generate summary.")
      Except.ok (pyStr content)
    match attempt with
    | .ok s => s
    | .error _ => "Could not generate AI summary due to an error."

/-- A normalized market as the raw dict the Python code holds. -/
def marketToPy (m : Market) : PyVal :=
  .dict [("id", .str m.id), ("question", .str m.question),
    ("conditionId", .str m.conditionId), ("slug", .str m.slug),
    ("category", .str m.category), ("liquidity", .float m.liquidity),
    ("volume", .float m.volume), ("startDate", .str m.startDate),
    ("endDate", .str m.endDate), ("active", .bool m.active),
    ("closed", .bool m.closed)]

/-- An optional string as the raw Python value it models. -/
def optStrToPy : Option String → PyVal
  | some s => .str s
  | Option.none => .none

/-- A minimal holder dict as the raw dict the Python code holds. -/
def holderToPy (h : TopHolder) : PyVal :=
  .dict [("address", optStrToPy h.address), ("username", optStrToPy h.username),
    ("amount", .float h.amount)]

/-- The `get_top_holders` result as the raw dict the Python code holds. -/
def holdersToPy (h : HoldersOut) : PyVal :=
  .dict [("yes", .list (h.yes.map holderToPy)), ("no", .list (h.no.map holderToPy))]

/-- A trader summary entry as the raw dict the Python code holds. -/
def traderToPy (t : TraderAgg) : PyVal :=
  .dict [("address", .str t.address), ("username", optStrToPy t.username),
    ("total_pnl", .float t.total_pnl),
    ("most_profitable_market", optStrToPy t.most_profitable_market)]

/-- The response of the `/agent/ask` handler: a validation error
(`{"error": msg}`), a plan-only response (`{"plan": {...}}` for
`execute=false`), or a result (`{"result": v}`). -/
inductive AskResponse where
  | errorResp (msg : String)
  | planResp (action : Option String) (params : Ctx)
  | resultResp (v : PyVal)

/-- The effective (truthy) session id: `if session_id:` treats both a
missing and an empty id as absent. -/
def sidVal : Option String → Option String
  | some s => if s = "" then Option.none else some s
  | Option.none => Option.none

/-- The tool-dispatch section of `agent_ask` in `agent_routes.py`
(everything from `# Execute the chosen tool` to the response), returning
the response outcome (`Except.error` models an exception escaping the
handler), the session store after the branch, and the effects performed.
The two wall-clock-dependent formatters (`_format_trades_text`,
`_format_trader_details_text` use `datetime.now()`) are abstracted as
parameters. -/
def executeTool (env : UpstreamEnv)
    (fmtTrades fmtTraderDetails : PyVal → Except PyErr String)
    (session_id : Option String) (fmt : String)
    (tool_name : Option String) (args : Ctx) (store : Store) :
    Except PyErr AskResponse × Store × List Effect :=
  if tool_name = some "get_markets" then
    let limit := pyGetD args "limit" (.int 5)
    match get_markets_normalized [("limit", pyStr limit)] env.marketsResp with
    | .error e => (.error e, store, [.httpGet "/markets"])
    | .ok result =>
      let store' :=
        match sidVal session_id, result with
        | some sid, m :: rest =>
          update_session_context store sid
            [("last_markets", .list ((m :: rest).map marketToPy)),
             ("last_condition_id", .str m.conditionId)]
        | _, _ => store
      let final := if fmt = "text" then PyVal.str (_format_markets_text result)
                   else .list (result.map marketToPy)
      (.ok (.resultResp final), store', [.httpGet "/markets"])
  else if tool_name = some "get_trades_for_condition" then
    let condition_id := pyGet args "condition_id"
    if ¬ pyTruthy condition_id then
      (.ok (.errorResp "condition_id is required for get_trades_for_condition."), store, [])
    else
      let limit := pyGetD args "limit" (.int 100)
      match get_trades_by_condition condition_id limit env.tradesResp with
      | .error e => (.error e, store, [.httpGet "/trades"])
      | .ok result =>
        let store' :=
          match sidVal session_id with
          | some sid => update_session_context store sid [("last_condition_id", condition_id)]
          | Option.none => store
        match fmtTrades result with
        | .error e => (.error e, store', [.httpGet "/trades"])
        | .ok formatted =>
          let final := if fmt = "text" then PyVal.str formatted else result
          (.ok (.resultResp final), store', [.httpGet "/trades"])
  else if tool_name = some "get_order_book" then
    let market_id := pyGet args "market_id"
    if ¬ pyTruthy market_id then
      (.ok (.errorResp "market_id is required for get_order_book."), store, [])
    else
      let path := "/markets/" ++ pyStr market_id ++ "/orders"
      match get_order_book (pyStr market_id) env.orderBookResp with
      | .error e => (.error e, store, [.httpGet path])
      | .ok result_data =>
        match pyContains result_data "error" with
        | .error e => (.error e, store, [.httpGet path])
        | .ok hasErr =>
          if hasErr then
            match _format_order_book_text result_data with
            | .error e => (.error e, store, [.httpGet path])
            | .ok fv =>
              let final := if fmt = "text" then fv else result_data
              (.ok (.resultResp final), store, [.httpGet path])
          else
            match pyDotGet result_data "order_books", pyDotGet result_data "condition_id" with
            | .ok result, .ok condition_id =>
              let store' :=
                match sidVal session_id with
                | some sid =>
                  if pyTruthy condition_id then
                    update_session_context store sid [("last_condition_id", condition_id)]
                  else store
                | Option.none => store
              match _format_order_book_text result with
              | .error e => (.error e, store', [.httpGet path])
              | .ok fv =>
                let final := if fmt = "text" then fv else result
                (.ok (.resultResp final), store', [.httpGet path])
            | .error e, _ => (.error e, store, [.httpGet path])
            | _, .error e => (.error e, store, [.httpGet path])
  else if tool_name = some "get_top_holders" then
    let condition_id := pyGet args "condition_id"
    if ¬ pyTruthy condition_id then
      (.ok (.errorResp "condition_id is required for get_top_holders."), store, [])
    else
      match get_top_holders condition_id env.holdersResp with
      | .error e => (.error e, store, [.httpGet "/holders"])
      | .ok result =>
        let store' :=
          match sidVal session_id with
          | some sid => update_session_context store sid [("last_condition_id", condition_id)]
          | Option.none => store
        let final := if fmt = "text" then PyVal.str (_format_top_holders_text result)
                     else holdersToPy result
        (.ok (.resultResp final), store', [.httpGet "/holders"])
  else if tool_name = some "get_top_traders_by_pnl" then
    match get_top_traders_by_pnl env.positionsResp with
    | .error e => (.error e, store, [.httpGet "/positions"])
    | .ok result =>
      let final := if fmt = "text" then PyVal.str (_format_top_traders_text result)
                   else .list (result.map traderToPy)
      (.ok (.resultResp final), store, [.httpGet "/positions"])
  else if tool_name = some "get_closed_positions_for_user" then
    let address := pyGet args "address"
    if ¬ pyTruthy address then
      (.ok (.errorResp "address is required for get_closed_positions_for_user."), store, [])
    else
      match get_closed_positions_for_user address env.closedResp with
      | .error e => (.error e, store, [.httpGet "/closed-positions"])
      | .ok result =>
        let store' :=
          match sidVal session_id with
          | some sid => update_session_context store sid [("last_trader_address", address)]
          | Option.none => store
        match _format_closed_positions_text result with
        | .error e => (.error e, store', [.httpGet "/closed-positions"])
        | .ok formatted =>
          let final := if fmt = "text" then PyVal.str formatted else result
          (.ok (.resultResp final), store', [.httpGet "/closed-positions"])
  else if tool_name = some "get_trader_details" then
    let address := pyGet args "address"
    if ¬ pyTruthy address then
      (.ok (.errorResp "address is required for get_trader_details."), store, [])
    else
      match summarize_trader_details env address with
      | .error e => (.error e, store, traderDetailsEffects env address)
      | .ok result =>
        let store' :=
          match sidVal session_id with
          | some sid => update_session_context store sid [("last_trader_address", address)]
          | Option.none => store
        let effs := traderDetailsEffects env address ++ [Effect.modelCall]
        match fmtTraderDetails result with
        | .error e => (.error e, store', traderDetailsEffects env address)
        | .ok ftext =>
          let ai := _summarize_trader_with_ai env.aiResp result
          let formatted := ftext ++ "\n\nAI Summary:\n" ++ ai
          let final := if fmt = "text" then PyVal.str formatted else result
          (.ok (.resultResp final), store', effs)
  else if tool_name = some "unsupported" then
    let result : PyVal := .dict [("error", .str "Query not supported by available tools.")]
    let final := if fmt = "text" then PyVal.str "Sorry, I can't answer that question." else result
    (.ok (.resultResp final), store, [])
  else
    (.ok (.errorResp ("Unknown tool: " ++ optStrRender tool_name)), store, [])

/-- Python whitespace for `str.strip()` (ASCII subset). -/
def pySpace (c : Char) : Bool :=
  c = ' ' ∨ c = '\t' ∨ c = '\n' ∨ c = '\x0d' ∨ c = '\x0b' ∨ c = '\x0c'

/-- Python `s.strip()` (ASCII whitespace). -/
def pyStrip (s : String) : String :=
  String.mk ((s.data.dropWhile pySpace).reverse.dropWhile pySpace).reverse

/-- The request body of the `/agent/ask` handler as it is read
(`payload.get("query", "")`, `payload.get("session_id")`). -/
structure AskPayload where
  query : Option String
  session_id : Option String

/-- The `/agent/ask` handler `agent_ask` from `agent_routes.py`: blank
query short-circuit, session context lookup, planner call, argument
decoding, plan-only response, then tool dispatch via `executeTool`. -/
def agent_ask (env : UpstreamEnv)
    (fmtTrades fmtTraderDetails : PyVal → Except PyErr String)
    (modelResp : ModelResp) (payload : AskPayload)
    (execute : Bool) (fmt : String) (store : Store) :
    Except PyErr AskResponse × Store × List Effect :=
  let query := pyStrip (payload.query.getD "")
  if query = "" then (.ok (.errorResp "Missing 'query' in body"), store, [])
  else
    let store1 :=
      match sidVal payload.session_id with
      | some sid => (get_session_context store sid).2
      | Option.none => store
    match planFromResponse modelResp with
    | .error e => (.error e, store1, [.modelCall])
    | .ok Option.none => (.ok (.errorResp "No tool call planned by the AI."), store1, [.modelCall])
    | .ok (some []) => (.ok (.errorResp "No tool call planned by the AI."), store1, [.modelCall])
    | .ok (some (tc :: _)) =>
      let fc := tc.function.getD ⟨Option.none, Option.none⟩
      let tool_name := fc.name
      match fc.arguments.getD (.parsed []) with
      | .invalid => (.ok (.errorResp "Failed to parse tool arguments from AI."), store1, [.modelCall])
      | .parsed args =>
        if ¬ execute then (.ok (.planResp tool_name args), store1, [.modelCall])
        else
          let r := executeTool env fmtTrades fmtTraderDetails payload.session_id fmt tool_name args store1
          (r.1, r.2.1, .modelCall :: r.2.2)

/-! ## Module-level imports (`agent_routes.py` header, claim C9) -/

/-- The module-level names defined by `polymarket_client.py` (its `def`s,
the exception class, and the base-url constants). -/
def polymarket_client_defs : List String :=
  ["GAMMA_BASE_URL", "DATA_BASE_URL", "CLOB_BASE_URL", "PolymarketAPIError",
   "_request_json", "get_events", "get_markets", "get_positions", "get_trades",
   "get_holders", "get_closed_positions", "get_order_book", "get_top_holders",
   "get_top_traders_by_pnl", "markets_above_volume", "_safe_str", "_safe_float",
   "_normalize_event", "get_events_normalized", "_normalize_market",
   "get_markets_normalized", "get_trades_by_condition", "summarize_trader_details",
   "infer_yes_no_from_price"]

/-- The names `agent_routes.py` imports `from .polymarket_client`. -/
def agent_routes_client_imports : List String :=
  ["get_markets_normalized", "get_trades_by_condition", "summarize_trader_details",
   "get_order_book", "get_top_holders", "get_top_traders_by_pnl",
   "get_closed_positions_for_user"]

/-- Whether the `from .polymarket_client import (...)` statement at the
top of `agent_routes.py` succeeds: every imported name must be defined in
`polymarket_client.py`, otherwise the module raises `ImportError` at load
time and no route of the module can execute. -/
def agent_routes_loads : Bool :=
  agent_routes_client_imports.all (fun n => polymarket_client_defs.contains n)

/-! ## Shared sample inputs for witnesses -/

/-- A benign environment: every upstream call succeeds with an empty list,
the AI-summary transport fails. -/
def sampleEnv : UpstreamEnv :=
  ⟨⟨200, some (.list [])⟩, ⟨200, some (.list [])⟩, ⟨200, some (.list [])⟩,
   ⟨200, some (.list [])⟩, ⟨200, some (.list [])⟩, ⟨200, some (.list [])⟩, .error ()⟩

/-- An environment whose order-book call fails with HTTP 500. -/
def envOrderBookDown : UpstreamEnv :=
  ⟨⟨200, some (.list [])⟩, ⟨200, some (.list [])⟩, ⟨200, some (.list [])⟩,
   ⟨200, some (.list [])⟩, ⟨200, some (.list [])⟩, ⟨500, some (.dict [])⟩, .error ()⟩

/-- A trivial stand-in for the abstracted wall-clock formatters. -/
def fmtNone : PyVal → Except PyErr String := fun _ => .ok ""

/-! ## C9 -/

/-- C9: `agent_routes.py` imports `get_closed_positions_for_user` from
`polymarket_client.py`, but no function of that name is defined there
(only `get_closed_positions` exists), so the module-level import fails
and the executor module cannot be loaded as written. -/
theorem C9_executor_import_is_missing :
    "get_closed_positions_for_user" ∈ agent_routes_client_imports ∧
    "get_closed_positions_for_user" ∉ polymarket_client_defs ∧
    "get_closed_positions" ∈ polymarket_client_defs ∧
    agent_routes_loads = false := by decide

/-! ## C10 -/

/-- `str.strip()` of an all-whitespace string is empty. -/
theorem pyStrip_of_space (s : String) (h : ∀ c ∈ s.data, pySpace c) :
    pyStrip s = "" := by
  unfold pyStrip
  have h1 : s.data.dropWhile pySpace = [] := List.dropWhile_eq_nil_iff.mpr h
  simp [h1]

/-- C10: a request whose `query` field is absent, empty, or all
whitespace is answered with `{"error": "Missing 'query' in body"}` before
the planner is called, before any upstream call, and before any session
store access. -/
theorem C10_blank_query_short_circuits
    (env : UpstreamEnv) (fmtTrades fmtTraderDetails : PyVal → Except PyErr String)
    (modelResp : ModelResp) (payload : AskPayload) (execute : Bool) (fmt : String)
    (store : Store)
    (hq : ∀ c ∈ (payload.query.getD "").data, pySpace c) :
    agent_ask env fmtTrades fmtTraderDetails modelResp payload execute fmt store =
      (.ok (.errorResp "Missing 'query' in body"), store, []) := by
  unfold agent_ask
  rw [pyStrip_of_space _ hq]
  simp

/-- Witness for C10 at a concrete whitespace query. -/
theorem C10_witness :
    agent_ask sampleEnv fmtNone fmtNone ⟨Option.none⟩ ⟨some " \t ", some "sess"⟩ true "text" [] =
      (.ok (.errorResp "Missing 'query' in body"), [], []) :=
  C10_blank_query_short_circuits sampleEnv fmtNone fmtNone ⟨Option.none⟩
    ⟨some " \t ", some "sess"⟩ true "text" [] (by decide)

/-! ## C5 -/

/-- C5: a planned action whose tool requires an argument that is absent
from the decoded arguments is answered with the exact message
`"<field> is required for <tool>."`, with no upstream call and no session
store write. -/
theorem C5_missing_required_argument
    (env : UpstreamEnv) (fmtTrades fmtTraderDetails : PyVal → Except PyErr String)
    (session_id : Option String) (fmt : String) (args : Ctx) (store : Store)
    (tool field : String)
    (hpair : (tool, field) ∈
      [("get_trades_for_condition", "condition_id"),
       ("get_order_book", "market_id"),
       ("get_top_holders", "condition_id"),
       ("get_trader_details", "address"),
       ("get_closed_positions_for_user", "address")])
    (hmiss : args.lookup field = Option.none) :
    executeTool env fmtTrades fmtTraderDetails session_id fmt (some tool) args store =
      (.ok (.errorResp (field ++ " is required for " ++ tool ++ ".")), store, []) := by
  have hget : pyGet args field = .none := by simp [pyGet, hmiss]
  simp only [List.mem_cons, List.mem_singleton, Prod.mk.injEq] at hpair
  rcases hpair with ⟨h1, h2⟩ | ⟨h1, h2⟩ | ⟨h1, h2⟩ | ⟨h1, h2⟩ | ⟨h1, h2⟩ | h <;>
    first
      | (subst h1; subst h2; simp [executeTool, hget, pyTruthy])
      | cases h

/-- Witness for C5 at a concrete tool with empty arguments. -/
theorem C5_witness :
    executeTool sampleEnv fmtNone fmtNone (some "sess") "text" (some "get_top_holders") [] [] =
      (.ok (.errorResp "condition_id is required for get_top_holders."), [], []) :=
  C5_missing_required_argument sampleEnv fmtNone fmtNone (some "sess") "text" [] []
    "get_top_holders" "condition_id" (by decide) rfl

/-! ## C7 -/

/-- C7 (amended): whenever the model response has no `choices` key, or its
first choice's message is absent or lacks a `tool_calls` key, the planner
returns the sentinel `[{"function": {"name": "unsupported", "arguments":
"{}"}}]`; and the executor maps the `unsupported` sentinel to the fixed
apology text (resp. the fixed error dict for `fmt=json`) with no upstream
call and no session-store write. -/
theorem C7_unsupported_sentinel :
    (∀ r : ModelResp, r.choices = Option.none →
      planFromResponse r = .ok (some [unsupportedSentinel]))
    ∧ (∀ (r : ModelResp) (c : ModelChoice) (rest : List ModelChoice),
        r.choices = some (c :: rest) → c.message = Option.none →
        planFromResponse r = .ok (some [unsupportedSentinel]))
    ∧ (∀ (r : ModelResp) (c : ModelChoice) (rest : List ModelChoice) (msg : MsgBody),
        r.choices = some (c :: rest) → c.message = some msg → msg.tool_calls = .absent →
        planFromResponse r = .ok (some [unsupportedSentinel]))
    ∧ (∀ (env : UpstreamEnv) (fmtTrades fmtTraderDetails : PyVal → Except PyErr String)
        (session_id : Option String) (fmt : String) (args : Ctx) (store : Store),
        executeTool env fmtTrades fmtTraderDetails session_id fmt (some "unsupported") args store =
          (.ok (.resultResp (if fmt = "text"
              then PyVal.str "Sorry, I can't answer that question."
              else .dict [("error", .str "Query not supported by available tools.")])),
            store, [])) := by
  refine ⟨fun r h => ?_, fun r c rest h hm => ?_, fun r c rest msg h hm ht => ?_,
    fun env fT fTD sid fmt args store => ?_⟩
  · simp [planFromResponse, h]
  · simp [planFromResponse, h, hm]
  · simp [planFromResponse, h, hm, msgTruthy, ht]
  · simp [executeTool]

/-- Counterexample to C7 as stated: the response
`{"choices": [{"message": {"tool_calls": []}}]}` contains no tool call,
yet the planner returns the empty plan list, not the sentinel. -/
theorem C7_counterexample :
    planFromResponse ⟨some [⟨some ⟨.calls [], false⟩⟩]⟩ = .ok (some ([] : List ToolCall)) ∧
    (some ([] : List ToolCall)) ≠ some [unsupportedSentinel] := by
  refine ⟨rfl, ?_⟩
  intro h
  simp at h

/-- Witness for C7 at concrete inputs. -/
theorem C7_witness :
    planFromResponse ⟨Option.none⟩ = .ok (some [unsupportedSentinel]) ∧
    executeTool sampleEnv fmtNone fmtNone Option.none "text" (some "unsupported") [] [] =
      (.ok (.resultResp (.str "Sorry, I can't answer that question.")), [], []) := by
  refine ⟨C7_unsupported_sentinel.1 ⟨Option.none⟩ rfl, ?_⟩
  have h := C7_unsupported_sentinel.2.2.2 sampleEnv fmtNone fmtNone Option.none "text" [] []
  simpa using h

/-! ## C1 -/

/-- C1 (code bug): when the order-book upstream call fails, `get_order_book`
raises `PolymarketAPIError` (it has no error handling), and the exception
escapes `agent_ask`'s `get_order_book` branch uncaught — while the caller's
own `if "error" in result_data` guard and the formatter's verbatim
rendering of an `error` field (third conjunct) show that a result-level
`{error: ...}` was the intended contract. -/
theorem C1_order_book_failure_raises :
    get_order_book "618023" ⟨500, some (.dict [])⟩ =
      .error (.polymarketAPIError
        "HTTP 500 for https://clob.polymarket.com/markets/618023/orders?") ∧
    executeTool envOrderBookDown fmtNone fmtNone (some "sess") "text"
        (some "get_order_book") [("market_id", .str "618023")] [] =
      (.error (.polymarketAPIError
          "HTTP 500 for https://clob.polymarket.com/markets/618023/orders?"),
        [], [.httpGet "/markets/618023/orders"]) ∧
    _format_order_book_text (.dict [("error", .str "HTTP 500 boom")]) =
      .ok (.str "HTTP 500 boom") := by
  refine ⟨rfl, ?_, rfl⟩
  have hs : pyStr (.str "618023") = "618023" := by simp [pyStr]
  simp [executeTool, pyGet, pyTruthy, hs, get_order_book, _request_json, envOrderBookDown,
    rstripSlash, lstripSlash, urlencode, CLOB_BASE_URL]
  rfl

/-! ## C4 -/

/-- Values over which Python's `for x in v:` raises `TypeError`. -/
def pyNotIterable : PyVal → Bool
  | .none | .bool _ | .int _ | .float _ => true
  | _ => false


/-- Field projections of `_normalize_market` (definitional). -/
theorem nm_id (fs : List (String × PyVal)) :
    (_normalize_market fs).id = _safe_str (pyGet fs "id") := rfl

theorem nm_question (fs : List (String × PyVal)) :
    (_normalize_market fs).question = _safe_str (pyOr (pyGet fs "question") (pyGet fs "title")) := rfl

theorem nm_conditionId (fs : List (String × PyVal)) :
    (_normalize_market fs).conditionId = _safe_str (pyGet fs "conditionId") := rfl

theorem nm_slug (fs : List (String × PyVal)) :
    (_normalize_market fs).slug = _safe_str (pyGet fs "slug") := rfl

theorem nm_category (fs : List (String × PyVal)) :
    (_normalize_market fs).category = _safe_str (pyGet fs "category") := rfl

theorem nm_liquidity (fs : List (String × PyVal)) :
    (_normalize_market fs).liquidity = _safe_float (pyOr (pyGet fs "liquidityNum") (pyGet fs "liquidity")) := rfl

theorem nm_volume (fs : List (String × PyVal)) :
    (_normalize_market fs).volume = _safe_float (pyOr (pyGet fs "volumeNum") (pyGet fs "volume")) := rfl

theorem nm_startDate (fs : List (String × PyVal)) :
    (_normalize_market fs).startDate = _safe_str (pyOr (pyGet fs "startDate") (pyGet fs "startDateIso")) := rfl

theorem nm_endDate (fs : List (String × PyVal)) :
    (_normalize_market fs).endDate = _safe_str (pyOr (pyGet fs "endDate") (pyGet fs "endDateIso")) := rfl

theorem nm_active (fs : List (String × PyVal)) :
    (_normalize_market fs).active = pyTruthy (pyGetD fs "active" (.bool false)) := rfl

theorem nm_closed (fs : List (String × PyVal)) :
    (_normalize_market fs).closed = pyTruthy (pyGetD fs "closed" (.bool false)) := rfl

/-- C4 (amended): markets normalization — a bare list keeps exactly its
dict entries; an envelope dict is unwrapped through
`raw.get("data") or raw.get("markets") or []`, with a dict unwrap treated
as a singleton, a string unwrap yielding no entries, and a non-iterable
unwrap raising `TypeError`; any other payload yields `[]`.  Each surviving
entry is normalized to the fixed `Market` record where a missing field
defaults (string → `""`, number → `0.0`, bool → `false`) and a present
field is coerced (strings via `str()`, numbers via float-parse-or-`0.0`,
booleans via Python truthiness). -/
theorem C4_markets_normalization :
    (∀ xs : List PyVal,
      get_markets_normalized_core (.list xs) =
        .ok ((xs.filterMap asDict).map _normalize_market))
    ∧ (∀ (kvs : List (String × PyVal)) (xs : List PyVal),
        pyOr (pyGet kvs "data") (pyOr (pyGet kvs "markets") (.list [])) = .list xs →
        get_markets_normalized_core (.dict kvs) =
          .ok ((xs.filterMap asDict).map _normalize_market))
    ∧ (∀ (kvs m : List (String × PyVal)),
        pyOr (pyGet kvs "data") (pyOr (pyGet kvs "markets") (.list [])) = .dict m →
        get_markets_normalized_core (.dict kvs) = .ok [_normalize_market m])
    ∧ (∀ (kvs : List (String × PyVal)) (s : String),
        pyOr (pyGet kvs "data") (pyOr (pyGet kvs "markets") (.list [])) = .str s →
        get_markets_normalized_core (.dict kvs) = .ok [])
    ∧ (∀ (kvs : List (String × PyVal)),
        pyNotIterable (pyOr (pyGet kvs "data") (pyOr (pyGet kvs "markets") (.list []))) = true →
        get_markets_normalized_core (.dict kvs) = .error .typeError)
    ∧ (∀ (n : ℤ) (q : ℚ) (b : Bool) (s : String),
        get_markets_normalized_core (.int n) = .ok [] ∧
        get_markets_normalized_core (.float q) = .ok [] ∧
        get_markets_normalized_core (.bool b) = .ok [] ∧
        get_markets_normalized_core (.str s) = .ok [] ∧
        get_markets_normalized_core .none = .ok [])
    ∧ (∀ fields : List (String × PyVal),
        (fields.lookup "id" = Option.none → (_normalize_market fields).id = "")
        ∧ (fields.lookup "question" = Option.none → fields.lookup "title" = Option.none →
            (_normalize_market fields).question = "")
        ∧ (fields.lookup "conditionId" = Option.none → (_normalize_market fields).conditionId = "")
        ∧ (fields.lookup "slug" = Option.none → (_normalize_market fields).slug = "")
        ∧ (fields.lookup "category" = Option.none → (_normalize_market fields).category = "")
        ∧ (fields.lookup "liquidityNum" = Option.none → fields.lookup "liquidity" = Option.none →
            (_normalize_market fields).liquidity = 0)
        ∧ (fields.lookup "volumeNum" = Option.none → fields.lookup "volume" = Option.none →
            (_normalize_market fields).volume = 0)
        ∧ (fields.lookup "startDate" = Option.none → fields.lookup "startDateIso" = Option.none →
            (_normalize_market fields).startDate = "")
        ∧ (fields.lookup "endDate" = Option.none → fields.lookup "endDateIso" = Option.none →
            (_normalize_market fields).endDate = "")
        ∧ (fields.lookup "active" = Option.none → (_normalize_market fields).active = false)
        ∧ (fields.lookup "closed" = Option.none → (_normalize_market fields).closed = false))
    ∧ (∀ (fields : List (String × PyVal)) (v : PyVal),
        (fields.lookup "active" = some v → (_normalize_market fields).active = pyTruthy v)
        ∧ (fields.lookup "closed" = some v → (_normalize_market fields).closed = pyTruthy v)
        ∧ (fields.lookup "id" = some v → (_normalize_market fields).id = _safe_str v)
        ∧ (fields.lookup "conditionId" = some v →
            (_normalize_market fields).conditionId = _safe_str v)) := by
  refine ⟨fun xs => rfl, fun kvs xs h => ?_, fun kvs m h => ?_, fun kvs s h => ?_,
    fun kvs h => ?_, fun n q b s => ⟨rfl, rfl, rfl, rfl, rfl⟩, fun fields => ?_, fun fields v => ?_⟩
  · simp [get_markets_normalized_core, h, asDict]
  · simp [get_markets_normalized_core, h, asDict]
  · simp [get_markets_normalized_core, h, asDict]
  · rcases hv : pyOr (pyGet kvs "data") (pyOr (pyGet kvs "markets") (.list [])) with
      _ | b | n | q | s | xs | m <;>
      simp [hv, pyNotIterable] at h ⊢ <;>
      simp [get_markets_normalized_core, hv, asDict]
  · refine ⟨fun h => ?_, fun h1 h2 => ?_, fun h => ?_, fun h => ?_, fun h => ?_,
      fun h1 h2 => ?_, fun h1 h2 => ?_, fun h1 h2 => ?_, fun h1 h2 => ?_,
      fun h => ?_, fun h => ?_⟩
    · rw [nm_id]; simp [pyGet, h, _safe_str]
    · rw [nm_question]; simp [pyGet, h1, h2, pyOr, pyTruthy, _safe_str]
    · rw [nm_conditionId]; simp [pyGet, h, _safe_str]
    · rw [nm_slug]; simp [pyGet, h, _safe_str]
    · rw [nm_category]; simp [pyGet, h, _safe_str]
    · rw [nm_liquidity]; simp [pyGet, h1, h2, pyOr, pyTruthy, _safe_float]
    · rw [nm_volume]; simp [pyGet, h1, h2, pyOr, pyTruthy, _safe_float]
    · rw [nm_startDate]; simp [pyGet, h1, h2, pyOr, pyTruthy, _safe_str]
    · rw [nm_endDate]; simp [pyGet, h1, h2, pyOr, pyTruthy, _safe_str]
    · rw [nm_active]; simp [pyGetD, h, pyTruthy]
    · rw [nm_closed]; simp [pyGetD, h, pyTruthy]
  · refine ⟨fun h => ?_, fun h => ?_, fun h => ?_, fun h => ?_⟩
    · rw [nm_active]; simp [pyGetD, h]
    · rw [nm_closed]; simp [pyGetD, h]
    · rw [nm_id]; simp [pyGet, h]
    · rw [nm_conditionId]; simp [pyGet, h]

/-- Counterexample to C4 as stated: the malformed boolean field
`active = "false"` is coerced by Python truthiness to `True`, not
defaulted to `false` as the claim's defaulting rule demands. -/
theorem C4_counterexample :
    get_markets_normalized_core (.list [.dict [("active", .str "false")]]) =
      .ok [⟨"", "", "", "", "", 0, 0, "", "", true, false⟩] ∧
    (⟨"", "", "", "", "", 0, 0, "", "", true, false⟩ : Market).active ≠ false := by
  exact ⟨rfl, by decide⟩

/-- Witness for C4 at concrete inputs: a singleton-dict envelope payload,
and the `active` default on an empty entry. -/
theorem C4_witness :
    get_markets_normalized_core (.dict [("data", .dict [("id", .str "7")])]) =
      .ok [_normalize_market [("id", .str "7")]] ∧
    (_normalize_market []).active = false :=
  ⟨C4_markets_normalization.2.2.1 _ _ rfl,
   (C4_markets_normalization.2.2.2.2.2.2.1 []).2.2.2.2.2.2.2.2.2.1 rfl⟩

/-! ## C6 -/

/-- `lookup` distributes over list append. -/
theorem lookup_append {α : Type} (l₁ l₂ : List (String × α)) (k : String) :
    (l₁ ++ l₂).lookup k =
      match l₁.lookup k with
      | some v => some v
      | Option.none => l₂.lookup k := by
  induction l₁ with
  | nil => simp [List.lookup]
  | cons a t ih =>
    rcases a with ⟨a1, a2⟩
    by_cases h : k = a1
    · subst h; simp [List.lookup]
    · have hb : (k == a1) = false := beq_false_of_ne h
      simp [List.lookup, hb, ih]

/-- `lookup` returns `none` when the key is not among the first
components. -/
theorem lookup_eq_none_of_not_mem {α : Type} (l : List (String × α)) (k : String)
    (h : k ∉ l.map Prod.fst) : l.lookup k = Option.none := by
  induction l with
  | nil => rfl
  | cons a t ih =>
    simp only [List.map_cons, List.mem_cons] at h
    push_neg at h
    have hb : (k == a.1) = false := beq_false_of_ne h.1
    rcases a with ⟨a1, a2⟩
    simp only at hb
    simp [List.lookup, hb, ih h.2]

/-- `lookup` after `d[k] = v`. -/
theorem lookup_pySetItem (d : Ctx) (k k' : String) (v : PyVal) :
    (pySetItem d k v).lookup k' = if k' = k then some v else d.lookup k' := by
  induction d with
  | nil =>
    by_cases h : k' = k
    · subst h; simp [pySetItem, List.lookup]
    · have hb : (k' == k) = false := beq_false_of_ne h
      simp [pySetItem, List.lookup, hb, h]
  | cons a t ih =>
    rcases a with ⟨a1, a2⟩
    by_cases h1 : a1 = k
    · subst h1
      by_cases h2 : k' = a1
      · subst h2; simp [pySetItem, List.lookup]
      · have hb : (k' == a1) = false := beq_false_of_ne h2
        simp [pySetItem, List.lookup, hb, h2]
    · have hset : pySetItem ((a1, a2) :: t) k v = (a1, a2) :: pySetItem t k v := by
        simp [pySetItem, h1]
      by_cases h2 : k' = a1
      · subst h2
        simp [hset, List.lookup, h1]
      · have hb : (k' == a1) = false := beq_false_of_ne h2
        simp [hset, List.lookup, hb, ih]

/-- `lookup` after `d.update(u)` (for `u` with distinct keys, as holds for
every Python dict): an updated key reads the update, any other key reads
the old record. -/
theorem lookup_pyDictUpdate (d u : Ctx) (hnodup : (u.map Prod.fst).Nodup) (k : String) :
    (pyDictUpdate d u).lookup k =
      match u.lookup k with
      | some v => some v
      | Option.none => d.lookup k := by
  induction u generalizing d with
  | nil => simp [pyDictUpdate, List.lookup]
  | cons a t ih =>
    rcases a with ⟨k0, v0⟩
    have hstep : pyDictUpdate d ((k0, v0) :: t) = pyDictUpdate (pySetItem d k0 v0) t := rfl
    simp only [List.map_cons, List.nodup_cons] at hnodup
    rw [hstep, ih _ hnodup.2]
    by_cases h : k = k0
    · subst h
      have ht : t.lookup k = Option.none := lookup_eq_none_of_not_mem t k hnodup.1
      simp [ht, List.lookup, lookup_pySetItem]
    · have hb : (k == k0) = false := beq_false_of_ne h
      simp [List.lookup, hb, lookup_pySetItem, h]

/-- `lookup` after replacing a session record. -/
theorem lookup_storeSet (st : Store) (sid : String) (c : Ctx) (k : String) :
    (storeSet st sid c).lookup k = if k = sid then some c else st.lookup k := by
  induction st with
  | nil =>
    by_cases h : k = sid
    · subst h; simp [storeSet, List.lookup]
    · have hb : (k == sid) = false := beq_false_of_ne h
      simp [storeSet, List.lookup, hb, h]
  | cons a t ih =>
    rcases a with ⟨a1, a2⟩
    by_cases h1 : a1 = sid
    · subst h1
      by_cases h2 : k = a1
      · subst h2; simp [storeSet, List.lookup]
      · have hb : (k == a1) = false := beq_false_of_ne h2
        simp [storeSet, List.lookup, hb, h2]
    · have hset : storeSet ((a1, a2) :: t) sid c = (a1, a2) :: storeSet t sid c := by
        simp [storeSet, h1]
      by_cases h2 : k = a1
      · subst h2
        simp [hset, List.lookup, h1]
      · have hb : (k == a1) = false := beq_false_of_ne h2
        simp [hset, List.lookup, hb, ih]

/-- `lookup` after `clear_session_context`. -/
theorem lookup_clear (st : Store) (sid k : String) :
    (clear_session_context st sid).lookup k =
      if k = sid then Option.none else st.lookup k := by
  induction st with
  | nil => simp [clear_session_context, List.lookup]
  | cons a t ih =>
    rcases a with ⟨a1, a2⟩
    by_cases h1 : a1 = sid
    · subst h1
      have hfil : clear_session_context ((a1, a2) :: t) a1 = clear_session_context t a1 := by
        simp [clear_session_context]
      by_cases h2 : k = a1
      · subst h2; simp [hfil, ih]
      · have hb : (k == a1) = false := beq_false_of_ne h2
        simp [hfil, ih, h2, List.lookup, hb]
    · have hfil : clear_session_context ((a1, a2) :: t) sid = (a1, a2) :: clear_session_context t sid := by
        simp [clear_session_context, h1]
      by_cases h2 : k = a1
      · subst h2
        simp [hfil, List.lookup, h1]
      · have hb : (k == a1) = false := beq_false_of_ne h2
        simp [hfil, List.lookup, hb, ih]

/-- C6: the session store laws — `get` is idempotent and always yields a
record (empty on first reference); `update` followed by `get` reflects
exactly the updated fields, leaving all other fields untouched; `clear`
followed by `get` yields a fresh empty record. -/
theorem C6_session_store_laws :
    (∀ (store : Store) (sid : String),
      get_session_context (get_session_context store sid).2 sid =
        get_session_context store sid)
    ∧ (∀ (store : Store) (sid : String),
        ((get_session_context store sid).2).lookup sid =
          some (get_session_context store sid).1)
    ∧ (∀ (store : Store) (sid : String), store.lookup sid = Option.none →
        (get_session_context store sid).1 = [])
    ∧ (∀ (store : Store) (sid : String) (updates : Ctx) (k : String),
        (updates.map Prod.fst).Nodup →
        ((get_session_context (update_session_context store sid updates) sid).1).lookup k =
          match updates.lookup k with
          | some v => some v
          | Option.none => ((get_session_context store sid).1).lookup k)
    ∧ (∀ (store : Store) (sid : String),
        (get_session_context (clear_session_context store sid) sid).1 = []) := by
  refine ⟨?_, ?_, ?_, ?_, ?_⟩
  · intro store sid
    rcases h : store.lookup sid with _ | c
    · have hl : (store ++ [(sid, ([] : Ctx))]).lookup sid = some [] := by
        simp [lookup_append, h, List.lookup]
      simp [get_session_context, h, hl]
    · simp [get_session_context, h]
  · intro store sid
    rcases h : store.lookup sid with _ | c
    · have hl : (store ++ [(sid, ([] : Ctx))]).lookup sid = some [] := by
        simp [lookup_append, h, List.lookup]
      simp [get_session_context, h, hl]
    · simp [get_session_context, h]
  · intro store sid h
    simp [get_session_context, h]
  · intro store sid updates k hnodup
    rcases h : store.lookup sid with _ | c
    · have hupd : update_session_context store sid updates =
          store ++ [(sid, pyDictUpdate [] updates)] := by
        simp [update_session_context, h]
      have hlook : (store ++ [(sid, pyDictUpdate [] updates)]).lookup sid =
          some (pyDictUpdate [] updates) := by
        simp [lookup_append, h, List.lookup]
      simp [hupd, get_session_context, hlook, h,
        lookup_pyDictUpdate [] updates hnodup k, List.lookup]
    · have hupd : update_session_context store sid updates =
          storeSet store sid (pyDictUpdate c updates) := by
        simp [update_session_context, h]
      have hlook : (storeSet store sid (pyDictUpdate c updates)).lookup sid =
          some (pyDictUpdate c updates) := by
        simp [lookup_storeSet]
      simp [hupd, get_session_context, hlook, h,
        lookup_pyDictUpdate c updates hnodup k]
  · intro store sid
    have hl : (clear_session_context store sid).lookup sid = Option.none := by
      simp [lookup_clear]
    simp [get_session_context, hl]

/-- Witness for C6 at a concrete store, session id, and update. -/
theorem C6_witness :
    (get_session_context ([("s", [("a", PyVal.int 1)])] : Store) "t").1 = [] ∧
    ((get_session_context
        (update_session_context ([("s", [("a", PyVal.int 1), ("b", PyVal.int 2)])] : Store)
          "s" [("b", PyVal.int 3)]) "s").1).lookup "a" = some (PyVal.int 1) := by
  constructor
  · exact C6_session_store_laws.2.2.1 [("s", [("a", PyVal.int 1)])] "t" rfl
  · have h := C6_session_store_laws.2.2.2.1 [("s", [("a", PyVal.int 1), ("b", PyVal.int 2)])]
      "s" [("b", PyVal.int 3)] "a" (by decide)
    simpa using h

/-! ## C3 -/

/-- All holder entries of the token entries whose `holders` field is a
list, in payload order. -/
def flatHolders (tokens : List TokenEntry) : List RawHolder :=
  tokens.flatMap fun t =>
    match t.holders with
    | .notAList => []
    | .ofList hs => hs

/-- The minimal dicts of the flattened holders with `outcomeIndex = 1`. -/
def yesFlat (tokens : List TokenEntry) : List TopHolder :=
  ((flatHolders tokens).filter (fun h => h.outcomeIndex = some 1)).map minimalHolder

/-- The minimal dicts of the flattened holders with `outcomeIndex = 0`. -/
def noFlat (tokens : List TokenEntry) : List TopHolder :=
  ((flatHolders tokens).filter (fun h => h.outcomeIndex = some 0)).map minimalHolder

/-- The inner holder loop partitions one holder list. -/
theorem foldl_holderStep (hs : List RawHolder) (acc : List TopHolder × List TopHolder) :
    hs.foldl holderStep acc =
      (acc.1 ++ (hs.filter (fun h => h.outcomeIndex = some 1)).map minimalHolder,
       acc.2 ++ (hs.filter (fun h => h.outcomeIndex = some 0)).map minimalHolder) := by
  induction hs generalizing acc with
  | nil => simp
  | cons h t ih =>
    rcases hidx : h.outcomeIndex with _ | q
    · simp [List.foldl_cons, holderStep, hidx, ih]
    · by_cases h1 : q = 1
      · subst h1
        simp [List.foldl_cons, holderStep, hidx, ih]
      · by_cases h0 : q = 0
        · subst h0
          have : ¬ ((0 : ℚ) = 1) := by norm_num
          simp [List.foldl_cons, holderStep, hidx, ih, this]
        · simp [List.foldl_cons, holderStep, hidx, ih, h1, h0]

/-- The bucket loop of `get_top_holders` computes exactly the partition of
the flattened holders by `outcomeIndex`. -/
theorem collectHolders_eq (tokens : List TokenEntry) :
    collectHolders tokens = (yesFlat tokens, noFlat tokens) := by
  suffices h : ∀ acc, tokens.foldl tokenStep acc =
      (acc.1 ++ yesFlat tokens, acc.2 ++ noFlat tokens) by
    simpa [collectHolders] using h ([], [])
  induction tokens with
  | nil => intro acc; simp [yesFlat, noFlat, flatHolders]
  | cons t ts ih =>
    intro acc
    have hyes : yesFlat (t :: ts) =
        (match t.holders with
          | .notAList => []
          | .ofList hs => (hs.filter (fun h => h.outcomeIndex = some 1)).map minimalHolder)
          ++ yesFlat ts := by
      rcases t with ⟨_ | hs⟩ <;> simp [yesFlat, flatHolders]
    have hno : noFlat (t :: ts) =
        (match t.holders with
          | .notAList => []
          | .ofList hs => (hs.filter (fun h => h.outcomeIndex = some 0)).map minimalHolder)
          ++ noFlat ts := by
      rcases t with ⟨_ | hs⟩ <;> simp [noFlat, flatHolders]
    rcases t with ⟨_ | hs⟩
    · simpa [tokenStep, hyes, hno] using ih acc
    · simp only [List.foldl_cons, tokenStep, foldl_holderStep, ih, hyes, hno]
      simp [List.append_assoc]

/-- `sortDescBy` sorts descending by the key. -/
theorem sortDescBy_sorted {α : Type} (key : α → ℚ) (xs : List α) :
    List.Sorted (fun a b => key b ≤ key a) (sortDescBy key xs) := by
  haveI : IsTotal α (fun a b => key b ≤ key a) := ⟨fun a b => le_total (key b) (key a)⟩
  haveI : IsTrans α (fun a b => key b ≤ key a) := ⟨fun a b c hab hbc => le_trans hbc hab⟩
  exact List.sorted_insertionSort _ xs

/-- `sortDescBy` permutes its input. -/
theorem sortDescBy_perm {α : Type} (key : α → ℚ) (xs : List α) :
    List.Perm (sortDescBy key xs) xs :=
  List.perm_insertionSort _ xs

/-- `sortAscBy` sorts ascending by the key. -/
theorem sortAscBy_sorted {α : Type} (key : α → ℚ) (xs : List α) :
    List.Sorted (fun a b => key a ≤ key b) (sortAscBy key xs) := by
  haveI : IsTotal α (fun a b => key a ≤ key b) := ⟨fun a b => le_total (key a) (key b)⟩
  haveI : IsTrans α (fun a b => key a ≤ key b) := ⟨fun a b c hab hbc => le_trans hab hbc⟩
  exact List.sorted_insertionSort _ xs

/-- `sortAscBy` permutes its input. -/
theorem sortAscBy_perm {α : Type} (key : α → ℚ) (xs : List α) :
    List.Perm (sortAscBy key xs) xs :=
  List.perm_insertionSort _ xs

/-- C3: for every holders payload, the `yes` and `no` lists each have at
most 5 entries and are sorted by amount descending, `yes` is exactly the
top 5 (after a stable descending sort) of the flattened holders with
`outcomeIndex = 1`, `no` of those with `outcomeIndex = 0`, and every
entry of either list is the minimal dict of a flattened holder with the
matching outcome index (so holders with any other index reach neither
list). -/
theorem C3_top_holders (tokens : List TokenEntry) :
    (get_top_holders_core (.ofList tokens)).yes.length ≤ 5
    ∧ (get_top_holders_core (.ofList tokens)).no.length ≤ 5
    ∧ List.Sorted (fun a b => b.amount ≤ a.amount) (get_top_holders_core (.ofList tokens)).yes
    ∧ List.Sorted (fun a b => b.amount ≤ a.amount) (get_top_holders_core (.ofList tokens)).no
    ∧ (get_top_holders_core (.ofList tokens)).yes =
        (sortDescBy (·.amount) (yesFlat tokens)).take 5
    ∧ (get_top_holders_core (.ofList tokens)).no =
        (sortDescBy (·.amount) (noFlat tokens)).take 5
    ∧ List.Perm (sortDescBy (·.amount) (yesFlat tokens)) (yesFlat tokens)
    ∧ List.Perm (sortDescBy (·.amount) (noFlat tokens)) (noFlat tokens)
    ∧ (∀ x ∈ (get_top_holders_core (.ofList tokens)).yes,
        ∃ h, h ∈ flatHolders tokens ∧ h.outcomeIndex = some 1 ∧ x = minimalHolder h)
    ∧ (∀ x ∈ (get_top_holders_core (.ofList tokens)).no,
        ∃ h, h ∈ flatHolders tokens ∧ h.outcomeIndex = some 0 ∧ x = minimalHolder h) := by
  have hcore : get_top_holders_core (.ofList tokens) =
      ⟨(sortDescBy (·.amount) (yesFlat tokens)).take 5,
       (sortDescBy (·.amount) (noFlat tokens)).take 5⟩ := by
    simp [get_top_holders_core, collectHolders_eq]
  have hyes_mem : ∀ x ∈ (get_top_holders_core (.ofList tokens)).yes,
      ∃ h, h ∈ flatHolders tokens ∧ h.outcomeIndex = some 1 ∧ x = minimalHolder h := by
    intro x hx
    rw [hcore] at hx
    have hx1 : x ∈ sortDescBy (·.amount) (yesFlat tokens) :=
      (List.take_sublist 5 _).mem hx
    have hx2 : x ∈ yesFlat tokens := (sortDescBy_perm _ _).mem_iff.mp hx1
    simp only [yesFlat, List.mem_map, List.mem_filter, decide_eq_true_eq] at hx2
    obtain ⟨h, ⟨hmem, hidx⟩, hval⟩ := hx2
    exact ⟨h, hmem, hidx, hval.symm⟩
  have hno_mem : ∀ x ∈ (get_top_holders_core (.ofList tokens)).no,
      ∃ h, h ∈ flatHolders tokens ∧ h.outcomeIndex = some 0 ∧ x = minimalHolder h := by
    intro x hx
    rw [hcore] at hx
    have hx1 : x ∈ sortDescBy (·.amount) (noFlat tokens) :=
      (List.take_sublist 5 _).mem hx
    have hx2 : x ∈ noFlat tokens := (sortDescBy_perm _ _).mem_iff.mp hx1
    simp only [noFlat, List.mem_map, List.mem_filter, decide_eq_true_eq] at hx2
    obtain ⟨h, ⟨hmem, hidx⟩, hval⟩ := hx2
    exact ⟨h, hmem, hidx, hval.symm⟩
  refine ⟨?_, ?_, ?_, ?_, ?_, ?_, sortDescBy_perm _ _, sortDescBy_perm _ _, hyes_mem, hno_mem⟩
  · rw [hcore]; simp
  · rw [hcore]; simp
  · rw [hcore]
    exact List.Pairwise.sublist (List.take_sublist 5 _) (sortDescBy_sorted _ _)
  · rw [hcore]
    exact List.Pairwise.sublist (List.take_sublist 5 _) (sortDescBy_sorted _ _)
  · rw [hcore]
  · rw [hcore]

/-- Witness for C3 at a concrete payload. -/
theorem C3_witness :
    (get_top_holders_core (.ofList [⟨.ofList
        [⟨some "a", Option.none, Option.none, 5, some 1⟩,
         ⟨some "b", Option.none, Option.none, 7, some 1⟩,
         ⟨some "c", Option.none, Option.none, 3, some 2⟩]⟩])).yes.length ≤ 5 ∧
    ∃ h, h ∈ flatHolders [⟨.ofList
        [⟨some "a", Option.none, Option.none, 5, some 1⟩,
         ⟨some "b", Option.none, Option.none, 7, some 1⟩,
         ⟨some "c", Option.none, Option.none, 3, some 2⟩]⟩]
      ∧ h.outcomeIndex = some 1
      ∧ (⟨some "b", Option.none, 7⟩ : TopHolder) = minimalHolder h := by
  refine ⟨(C3_top_holders _).1, ?_⟩
  exact (C3_top_holders _).2.2.2.2.2.2.2.2.1 ⟨some "b", Option.none, 7⟩ (by decide)

/-! ## C2 -/

/-- The pnl contributions of one trader's positions: positions whose
effective address matches, in payload order. -/
def specTotal (addr : String) (ps : List RawPosition) : ℚ :=
  ((ps.filter (fun p => effAddr p = some addr)).map (·.cashPnl)).sum

/-- One step of the strict running maximum over a trader's positions
(first-encountered position wins ties). -/
def bestStep (best : Option (ℚ × Option String)) (p : RawPosition) :
    Option (ℚ × Option String) :=
  match best with
  | Option.none => some (p.cashPnl, p.title)
  | some mt => if p.cashPnl > mt.1 then some (p.cashPnl, p.title) else best

/-- The highest-pnl position of one trader (first encountered wins ties),
as a (pnl, title) pair. -/
def specBest (addr : String) (ps : List RawPosition) : Option (ℚ × Option String) :=
  (ps.filter (fun p => effAddr p = some addr)).foldl bestStep Option.none

/-- `bestStep` never discards an already-found best. -/
theorem foldl_bestStep_eq_none (l : List RawPosition) (o : Option (ℚ × Option String)) :
    l.foldl bestStep o = Option.none ↔ l = [] ∧ o = Option.none := by
  induction l generalizing o with
  | nil => simp
  | cons p t ih =>
    simp only [List.foldl_cons, ih]
    constructor
    · rintro ⟨-, h⟩
      rcases o with _ | mt
      · simp [bestStep] at h
      · simp [bestStep] at h
        split at h
        · simp_all
        · simp_all
    · rintro ⟨h, -⟩; cases h

/-- `lookup` after one `defaultdict` bump. -/
theorem lookup_bumpAcc (acc : List (String × TraderAcc)) (a : String) (p : RawPosition)
    (k : String) :
    (bumpAcc acc a p).lookup k =
      if k = a then some (stepAcc ((acc.lookup a).getD emptyAcc) p) else acc.lookup k := by
  induction acc with
  | nil =>
    by_cases h : k = a
    · subst h; simp [bumpAcc, List.lookup]
    · have hb : (k == a) = false := beq_false_of_ne h
      simp [bumpAcc, List.lookup, hb, h]
  | cons e rest ih =>
    rcases e with ⟨k0, d0⟩
    by_cases h0 : k0 = a
    · subst h0
      by_cases h : k = k0
      · subst h; simp [bumpAcc, List.lookup]
      · have hb : (k == k0) = false := beq_false_of_ne h
        simp [bumpAcc, List.lookup, hb, h]
    · have hbump : bumpAcc ((k0, d0) :: rest) a p = (k0, d0) :: bumpAcc rest a p := by
        simp [bumpAcc, h0]
      by_cases h : k = k0
      · subst h
        have hka : ¬ k = a := fun hh => h0 hh
        simp [hbump, List.lookup, hka]
      · have hb : (k == k0) = false := beq_false_of_ne h
        by_cases hka : k = a
        · subst hka
          simp [hbump, List.lookup, hb, ih]
        · simp [hbump, List.lookup, hb, ih, hka]

/-- The keys after one bump: unchanged when the address is present,
appended otherwise. -/
theorem keys_bumpAcc (acc : List (String × TraderAcc)) (a : String) (p : RawPosition) :
    (bumpAcc acc a p).map Prod.fst =
      if a ∈ acc.map Prod.fst then acc.map Prod.fst else acc.map Prod.fst ++ [a] := by
  induction acc with
  | nil => simp [bumpAcc]
  | cons e rest ih =>
    rcases e with ⟨k0, d0⟩
    by_cases h0 : k0 = a
    · subst h0; simp [bumpAcc]
    · have hne : ¬ a = k0 := fun hh => h0 hh.symm
      simp only [bumpAcc, h0, if_false, List.map_cons, ih, List.mem_cons, hne, false_or]
      by_cases hm : a ∈ rest.map Prod.fst <;> simp [hm]

/-- The aggregate's keys are distinct. -/
theorem aggregate_keys_nodup (ps : List RawPosition) :
    ((aggregatePositions ps).map Prod.fst).Nodup := by
  suffices h : ∀ acc : List (String × TraderAcc), (acc.map Prod.fst).Nodup →
      ((ps.foldl posStep acc).map Prod.fst).Nodup by
    exact h [] (by simp)
  induction ps with
  | nil => intro acc hacc; simpa using hacc
  | cons p t ih =>
    intro acc hacc
    simp only [List.foldl_cons]
    apply ih
    rcases hp : effAddr p with _ | a
    · simpa [posStep, hp] using hacc
    · rw [posStep, hp, keys_bumpAcc]
      split
      · exact hacc
      · rename_i hmem
        simp [List.nodup_append, hacc, hmem]

/-- For an association list with distinct keys, membership determines
`lookup`. -/
theorem lookup_of_mem_nodup {α : Type} (l : List (String × α))
    (h : (l.map Prod.fst).Nodup) (a : String) (d : α) (hm : (a, d) ∈ l) :
    l.lookup a = some d := by
  induction l with
  | nil => cases hm
  | cons e rest ih =>
    rcases e with ⟨k0, d0⟩
    simp only [List.map_cons, List.nodup_cons] at h
    rcases List.mem_cons.mp hm with he | hrest
    · rcases Prod.mk.injEq .. ▸ he with ⟨h1, h2⟩
      subst h1; subst h2
      simp [List.lookup]
    · have hne : ¬ a = k0 := by
        intro hh; subst hh
        exact h.1 (List.mem_map.mpr ⟨(a, d), hrest, rfl⟩)
      have hb : (a == k0) = false := beq_false_of_ne hne
      simp [List.lookup, hb, ih h.2 hrest]

/-- `stepAcc` always adds the position's pnl to the running total. -/
theorem stepAcc_total (d : TraderAcc) (p : RawPosition) :
    (stepAcc d p).total_pnl = d.total_pnl + p.cashPnl := by
  unfold stepAcc
  dsimp only
  split <;> split <;> first | rfl | (split <;> rfl)

/-- `stepAcc` tracks the strict running maximum and its market title. -/
theorem stepAcc_maxmost (d : TraderAcc) (p : RawPosition) :
    ((stepAcc d p).max_pnl, (stepAcc d p).most_profitable_market) =
      (match d.max_pnl with
        | Option.none => (some p.cashPnl, p.title)
        | some m =>
          if p.cashPnl > m then (some p.cashPnl, p.title)
          else (d.max_pnl, d.most_profitable_market)) := by
  unfold stepAcc
  dsimp only
  by_cases hu : ¬ truthyStr d.username = true ∧ truthyStr (posUsername p) = true
  · rw [if_pos hu]
    rcases hm : d.max_pnl with _ | m
    · simp [hm]
    · by_cases hgt : m < p.cashPnl
      · simp [hm, hgt]
      · simp [hm, hgt]
  · rw [if_neg hu]
    rcases hm : d.max_pnl with _ | m
    · simp [hm]
    · by_cases hgt : m < p.cashPnl
      · simp [hm, hgt]
      · simp [hm, hgt]

/-- The aggregate of `get_top_traders_by_pnl` computes, for every trader
address, exactly the per-trader sum and the first-encountered strict
maximum over that trader's positions. -/
theorem aggregate_spec (ps : List RawPosition) (addr : String) :
    ((aggregatePositions ps).lookup addr = Option.none ↔
        ps.filter (fun p => effAddr p = some addr) = [])
    ∧ (∀ d, (aggregatePositions ps).lookup addr = some d →
        d.total_pnl = specTotal addr ps ∧
        d.max_pnl = (specBest addr ps).map Prod.fst ∧
        d.most_profitable_market = (specBest addr ps).bind Prod.snd) := by
  induction ps using List.reverseRecOn with
  | nil => simp [aggregatePositions, specTotal, specBest, List.lookup]
  | append_singleton ps p ih =>
    have hagg : aggregatePositions (ps ++ [p]) = posStep (aggregatePositions ps) p := by
      simp [aggregatePositions, List.foldl_append]
    rcases hp : effAddr p with _ | a
    · have hfil : (ps ++ [p]).filter (fun q => effAddr q = some addr) =
          ps.filter (fun q => effAddr q = some addr) := by
        simp [List.filter_append, hp]
      have htot : specTotal addr (ps ++ [p]) = specTotal addr ps := by
        simp [specTotal, hfil]
      have hbest : specBest addr (ps ++ [p]) = specBest addr ps := by
        simp [specBest, hfil]
      rw [hagg, posStep, hp, hfil, htot, hbest]
      exact ih
    · by_cases ha : a = addr
      · subst ha
        have hfil : (ps ++ [p]).filter (fun q => effAddr q = some a) =
            ps.filter (fun q => effAddr q = some a) ++ [p] := by
          simp [List.filter_append, hp]
        have htot : specTotal a (ps ++ [p]) = specTotal a ps + p.cashPnl := by
          simp [specTotal, hfil]
        have hbest : specBest a (ps ++ [p]) = bestStep (specBest a ps) p := by
          simp [specBest, hfil]
        rw [hagg, posStep, hp]
        constructor
        · rw [lookup_bumpAcc]
          simp [hfil]
        · intro d hd
          rw [lookup_bumpAcc, if_pos rfl] at hd
          injection hd with hd
          rcases hlk : (aggregatePositions ps).lookup a with _ | d0
          · -- first position of this trader
            have hfil0 : ps.filter (fun q => effAddr q = some a) = [] := ih.1.mp hlk
            have htot0 : specTotal a ps = 0 := by simp [specTotal, hfil0]
            have hbest0 : specBest a ps = Option.none := by simp [specBest, hfil0]
            rw [hlk] at hd
            simp only [Option.getD_none] at hd
            subst hd
            have h1 := congrArg Prod.fst (stepAcc_maxmost emptyAcc p)
            have h2 := congrArg Prod.snd (stepAcc_maxmost emptyAcc p)
            simp only [emptyAcc] at h1 h2
            refine ⟨?_, ?_, ?_⟩
            · rw [stepAcc_total, htot, htot0]; simp [emptyAcc]
            · rw [hbest, hbest0]
              simpa [bestStep] using h1
            · rw [hbest, hbest0]
              simpa [bestStep] using h2
          · obtain ⟨ht0, hm0, hp0⟩ := ih.2 d0 hlk
            have hbsome : ∃ mt, specBest a ps = some mt := by
              rcases hb : specBest a ps with _ | mt
              · exfalso
                have hfe : ps.filter (fun q => effAddr q = some a) = [] :=
                  ((foldl_bestStep_eq_none _ _).mp hb).1
                exact (by simp [ih.1.mpr hfe] at hlk)
              · exact ⟨mt, rfl⟩
            obtain ⟨mt, hmt⟩ := hbsome
            rw [hlk] at hd
            simp only [Option.getD_some] at hd
            subst hd
            rw [hmt] at hm0 hp0
            simp only [Option.map_some', Option.some_bind] at hm0 hp0
            have h1 := congrArg Prod.fst (stepAcc_maxmost d0 p)
            have h2 := congrArg Prod.snd (stepAcc_maxmost d0 p)
            rw [hm0] at h1 h2
            simp only at h1 h2
            refine ⟨?_, ?_, ?_⟩
            · rw [stepAcc_total, ht0, htot]
            · rw [hbest, hmt]
              by_cases hgt : p.cashPnl > mt.1
              · simpa [bestStep, hgt] using h1
              · simp only [if_neg hgt] at h1
                simpa [bestStep, hgt, hm0] using h1
            · rw [hbest, hmt]
              by_cases hgt : p.cashPnl > mt.1
              · simpa [bestStep, hgt] using h2
              · simp only [if_neg hgt] at h2
                simpa [bestStep, hgt, hp0] using h2
      · have hne : (effAddr p = some addr) = False := by
          simp [hp, ha]
        have hfil : (ps ++ [p]).filter (fun q => effAddr q = some addr) =
            ps.filter (fun q => effAddr q = some addr) := by
          simp [List.filter_append, hne]
        have htot : specTotal addr (ps ++ [p]) = specTotal addr ps := by
          simp [specTotal, hfil]
        have hbest : specBest addr (ps ++ [p]) = specBest addr ps := by
          simp [specBest, hfil]
        rw [hagg, posStep, hp, hfil, htot, hbest, lookup_bumpAcc]
        have hka : ¬ addr = a := fun hh => ha hh.symm
        simp only [if_neg hka]
        exact ih

/-- C2: the top-traders aggregation — at most 5 traders, ordered by total
pnl descending (stable: ties keep first-encounter order, witnessed by the
pair-sublist conjunct); each returned trader's `total_pnl` is the sum of
the `cashPnl` contributions of that trader's positions, and its
`most_profitable_market` is the title of the first position attaining the
trader's maximum pnl; positions with a missing (falsy) trader address are
skipped entirely. -/
theorem C2_top_traders :
    (∀ ps : List RawPosition, (get_top_traders_core (.ofList ps)).length ≤ 5)
    ∧ (∀ ps : List RawPosition,
        List.Sorted (fun a b : TraderAgg => b.total_pnl ≤ a.total_pnl)
          (get_top_traders_core (.ofList ps)))
    ∧ (∀ ps : List RawPosition, ∀ t ∈ get_top_traders_core (.ofList ps),
        t.total_pnl = specTotal t.address ps
        ∧ ∃ m, specBest t.address ps = some (m, t.most_profitable_market))
    ∧ (∀ ps : List RawPosition, get_top_traders_core (.ofList ps) =
        (sortDescBy (·.total_pnl) (traderSummary ps)).take 5)
    ∧ (∀ ps : List RawPosition,
        List.Perm (sortDescBy (·.total_pnl) (traderSummary ps)) (traderSummary ps))
    ∧ (∀ (ps : List RawPosition) (a b : TraderAgg),
        List.Sublist [a, b] (traderSummary ps) → b.total_pnl ≤ a.total_pnl →
        List.Sublist [a, b] (sortDescBy (·.total_pnl) (traderSummary ps)))
    ∧ (∀ (ps₁ ps₂ : List RawPosition) (p : RawPosition), effAddr p = Option.none →
        get_top_traders_core (.ofList (ps₁ ++ p :: ps₂)) =
          get_top_traders_core (.ofList (ps₁ ++ ps₂))) := by
  have hcore : ∀ ps : List RawPosition, get_top_traders_core (.ofList ps) =
      (sortDescBy (·.total_pnl) (traderSummary ps)).take 5 := fun ps => rfl
  refine ⟨?_, ?_, ?_, hcore, fun ps => sortDescBy_perm _ _, ?_, ?_⟩
  · intro ps; rw [hcore]; simp
  · intro ps; rw [hcore]
    exact List.Pairwise.sublist (List.take_sublist 5 _) (sortDescBy_sorted _ _)
  · intro ps t ht
    rw [hcore] at ht
    have ht1 : t ∈ sortDescBy (·.total_pnl) (traderSummary ps) :=
      (List.take_sublist 5 _).mem ht
    have ht2 : t ∈ traderSummary ps := (sortDescBy_perm _ _).mem_iff.mp ht1
    simp only [traderSummary, List.mem_map] at ht2
    obtain ⟨kd, hkd, hteq⟩ := ht2
    have hlk : (aggregatePositions ps).lookup kd.1 = some kd.2 :=
      lookup_of_mem_nodup _ (aggregate_keys_nodup ps) kd.1 kd.2 (by simpa using hkd)
    obtain ⟨htot, hmax, hmost⟩ := (aggregate_spec ps kd.1).2 kd.2 hlk
    have hfil : ps.filter (fun p => effAddr p = some kd.1) ≠ [] := by
      intro hfe
      rw [(aggregate_spec ps kd.1).1.mpr hfe] at hlk
      cases hlk
    have hbsome : ∃ mt, specBest kd.1 ps = some mt := by
      rcases hb : specBest kd.1 ps with _ | mt
      · exact absurd ((foldl_bestStep_eq_none _ _).mp hb).1 hfil
      · exact ⟨mt, rfl⟩
    obtain ⟨mt, hmt⟩ := hbsome
    have haddr : t.address = kd.1 := by rw [← hteq]
    have httl : t.total_pnl = kd.2.total_pnl := by rw [← hteq]
    have hmpm : t.most_profitable_market = kd.2.most_profitable_market := by rw [← hteq]
    constructor
    · rw [httl, haddr, htot]
    · refine ⟨mt.1, ?_⟩
      rw [haddr, hmt, hmpm, hmost, hmt]
      simp
  · intro ps a b hsub hr
    exact List.pair_sublist_insertionSort hr hsub
  · intro ps₁ ps₂ p hp
    have hagg : aggregatePositions (ps₁ ++ p :: ps₂) = aggregatePositions (ps₁ ++ ps₂) := by
      simp [aggregatePositions, List.foldl_append, List.foldl_cons, posStep, hp]
    simp [get_top_traders_core, traderSummary, hagg]

/-- A concrete positions page for the C2 witness: trader `x` has two
positions (5 then 2, so total 7, best market `M1`), trader `y` one, and
one entry has no trader address. -/
def samplePositions : List RawPosition :=
  [⟨some "x", 5, some "M1", Option.none, Option.none⟩,
   ⟨some "y", 7, some "M2", some "Y", Option.none⟩,
   ⟨some "x", 2, some "M3", Option.none, Option.none⟩,
   ⟨Option.none, 100, some "M4", Option.none, Option.none⟩]

/-- Witness for C2 at a concrete positions page. -/
theorem C2_witness :
    (get_top_traders_core (.ofList samplePositions)).length ≤ 5 ∧
    ((⟨"x", Option.none, 7, some "M1"⟩ : TraderAgg).total_pnl =
        specTotal "x" samplePositions
      ∧ ∃ m, specBest "x" samplePositions =
          some (m, (⟨"x", Option.none, 7, some "M1"⟩ : TraderAgg).most_profitable_market)) := by
  have hout : get_top_traders_core (.ofList samplePositions) =
      [⟨"x", Option.none, 7, some "M1"⟩, ⟨"y", some "Y", 7, some "M2"⟩] := by
    simp +decide [get_top_traders_core, traderSummary, aggregatePositions, posStep, effAddr,
      bumpAcc, stepAcc, emptyAcc, truthyStr, posUsername, samplePositions, sortDescBy,
      List.insertionSort, List.orderedInsert]
    norm_num
  refine ⟨C2_top_traders.1 samplePositions,
    C2_top_traders.2.2.1 samplePositions ⟨"x", Option.none, 7, some "M1"⟩ ?_⟩
  rw [hout]
  simp

/-! ## C8 -/

/-- The key value of an entry whose key computation succeeds. -/
def priceVal (x : PyVal) : ℚ :=
  match priceOf x with
  | .ok q => q
  | .error _ => 0

/-- A successful key pass determines the keyed list pointwise. -/
theorem keyedPrices_ok (xs : List PyVal) (ks : List (ℚ × PyVal))
    (h : keyedPrices xs = .ok ks) :
    ks = xs.map (fun x => (priceVal x, x)) ∧ ∀ x ∈ xs, priceOf x = .ok (priceVal x) := by
  induction xs generalizing ks with
  | nil =>
    rw [show keyedPrices [] = Except.ok [] from rfl] at h
    injection h with h
    subst h
    simp
  | cons x t ih =>
    unfold keyedPrices at h
    rcases hx : priceOf x with e | q
    · rw [hx] at h; cases h
    · rw [hx] at h
      rcases ht : keyedPrices t with e | rest
      · rw [ht] at h; cases h
      · rw [ht] at h
        have h2 : Except.ok ((q, x) :: rest) = (Except.ok ks : Except PyErr (List (ℚ × PyVal))) := h
        have h3 : ((q, x) :: rest) = ks := by injection h2
        subst h3
        obtain ⟨hrest, hall⟩ := ih rest ht
        constructor
        · simp [hrest, priceVal, hx]
        · intro y hy
          rcases List.mem_cons.mp hy with rfl | hyt
          · simp [priceVal, hx]
          · exact hall y hyt

/-- Pointwise successful keys make the key pass succeed. -/
theorem keyedPrices_of_all (xs : List PyVal)
    (h : ∀ x ∈ xs, priceOf x = .ok (priceVal x)) :
    keyedPrices xs = .ok (xs.map (fun x => (priceVal x, x))) := by
  induction xs with
  | nil => rfl
  | cons x t ih =>
    have hx := h x (List.mem_cons_self x t)
    have ht := ih (fun y hy => h y (List.mem_cons_of_mem x hy))
    unfold keyedPrices
    rw [hx, ht]
    rfl

/-- When the key pass succeeds, the display sort is the stable insertion
sort of the keyed list. -/
theorem sortOrdersBy_eq_of_ok (desc : Bool) (xs : List PyVal) (ks : List (ℚ × PyVal))
    (h : keyedPrices xs = .ok ks) :
    sortOrdersBy desc xs =
      .ok ((if desc then sortDescBy (·.1) ks else sortAscBy (·.1) ks).map (·.2)) := by
  unfold sortOrdersBy
  rw [h]
  rfl

/-- Two sorted permutations of one pair list with distinct keys are
equal, for any antisymmetric key order. -/
theorem sorted_perm_nodup_key_eq {α : Type} (r : ℚ → ℚ → Prop)
    (hanti : ∀ x y, r x y → r y x → x = y) :
    ∀ (l₁ l₂ : List (ℚ × α)), List.Perm l₁ l₂ →
      List.Pairwise (fun a b => r a.1 b.1) l₁ →
      List.Pairwise (fun a b => r a.1 b.1) l₂ →
      (l₁.map Prod.fst).Nodup → l₁ = l₂
  | [], l₂, hp, _, _, _ => (hp.nil_eq).symm ▸ rfl
  | a :: t₁, [], hp, _, _, _ => absurd (hp.symm.nil_eq) (by simp)
  | a :: t₁, b :: t₂, hp, h₁, h₂, hn => by
    simp only [List.map_cons, List.nodup_cons] at hn
    by_cases hab : a = b
    · subst hab
      have hp' : List.Perm t₁ t₂ := hp.cons_inv
      have := sorted_perm_nodup_key_eq r hanti t₁ t₂ hp'
        (List.pairwise_cons.mp h₁).2 (List.pairwise_cons.mp h₂).2 hn.2
      rw [this]
    · exfalso
      have hamem : a ∈ b :: t₂ := hp.subset (List.mem_cons_self a t₁)
      have hat₂ : a ∈ t₂ := by
        rcases List.mem_cons.mp hamem with h | h
        · exact absurd h hab
        · exact h
      have hbmem : b ∈ a :: t₁ := hp.symm.subset (List.mem_cons_self b t₂)
      have hbt₁ : b ∈ t₁ := by
        rcases List.mem_cons.mp hbmem with h | h
        · exact absurd h.symm hab
        · exact h
      have hr1 : r a.1 b.1 := (List.pairwise_cons.mp h₁).1 b hbt₁
      have hr2 : r b.1 a.1 := (List.pairwise_cons.mp h₂).1 a hat₂
      have hkey : a.1 = b.1 := hanti _ _ hr1 hr2
      exact hn.1 (List.mem_map.mpr ⟨b, hbt₁, hkey.symm⟩)

/-- A bid/ask list whose keys all succeed and are pairwise distinct. -/
def pricesDistinct (xs : List PyVal) : Prop :=
  ∃ ks, keyedPrices xs = Except.ok ks ∧ (ks.map Prod.fst).Nodup

set_option maxHeartbeats 1000000 in
/-- With distinct prices, the display sort is invariant under permuting
the input (with tied prices, Python's stable sort keeps input order
instead — see the C8 counterexample). -/
theorem sortOrdersBy_perm_eq (desc : Bool) (xs ys : List PyVal)
    (hperm : List.Perm xs ys) (hdist : pricesDistinct xs) :
    sortOrdersBy desc xs = sortOrdersBy desc ys := by
  obtain ⟨ks, hok, hn⟩ := hdist
  obtain ⟨hks, hall⟩ := keyedPrices_ok xs ks hok
  have hally : ∀ x ∈ ys, priceOf x = .ok (priceVal x) :=
    fun x hx => hall x (hperm.mem_iff.mpr hx)
  have hokx : keyedPrices xs = .ok (xs.map (fun x => (priceVal x, x))) := by rw [hok, hks]
  have hoky : keyedPrices ys = .ok (ys.map (fun x => (priceVal x, x))) :=
    keyedPrices_of_all ys hally
  have hKperm : List.Perm (xs.map (fun x => (priceVal x, x)))
      (ys.map (fun x => (priceVal x, x))) := hperm.map _
  have hnx : ((xs.map (fun x => (priceVal x, x))).map Prod.fst).Nodup := by
    rw [← hks]; exact hn
  have heqD : sortDescBy (·.1) (xs.map (fun x => (priceVal x, x))) =
      sortDescBy (·.1) (ys.map (fun x => (priceVal x, x))) := by
    have hperm' : List.Perm (sortDescBy (·.1) (xs.map (fun x => (priceVal x, x))))
        (sortDescBy (·.1) (ys.map (fun x => (priceVal x, x)))) :=
      ((sortDescBy_perm _ _).trans hKperm).trans (sortDescBy_perm _ _).symm
    have hnod : ((sortDescBy (·.1) (xs.map (fun x => (priceVal x, x)))).map Prod.fst).Nodup :=
      (((sortDescBy_perm (·.1) _).map Prod.fst).nodup_iff).mpr hnx
    exact sorted_perm_nodup_key_eq (fun x y => y ≤ x)
      (fun x y hxy hyx => le_antisymm hyx hxy) _ _ hperm'
      (sortDescBy_sorted _ _) (sortDescBy_sorted _ _) hnod
  have heqA : sortAscBy (·.1) (xs.map (fun x => (priceVal x, x))) =
      sortAscBy (·.1) (ys.map (fun x => (priceVal x, x))) := by
    have hperm' : List.Perm (sortAscBy (·.1) (xs.map (fun x => (priceVal x, x))))
        (sortAscBy (·.1) (ys.map (fun x => (priceVal x, x)))) :=
      ((sortAscBy_perm _ _).trans hKperm).trans (sortAscBy_perm _ _).symm
    have hnod : ((sortAscBy (·.1) (xs.map (fun x => (priceVal x, x)))).map Prod.fst).Nodup :=
      (((sortAscBy_perm (·.1) _).map Prod.fst).nodup_iff).mpr hnx
    exact sorted_perm_nodup_key_eq (fun x y => x ≤ y)
      (fun x y hxy hyx => le_antisymm hxy hyx) _ _ hperm'
      (sortAscBy_sorted _ _) (sortAscBy_sorted _ _) hnod
  rw [sortOrdersBy_eq_of_ok desc xs _ hokx, sortOrdersBy_eq_of_ok desc ys _ hoky,
    heqD, heqA]

/-- An order-book side record with exactly the fields of the spec's
Order Book data model. -/
def mkSide (market tick minsz : PyVal) (bids asks : List PyVal) : PyVal :=
  .dict [("market", market), ("tick_size", tick), ("min_order_size", minsz),
         ("bids", .list bids), ("asks", .list asks)]

/-- An order book with a `yes` and a `no` side. -/
def mkBook (yes no : PyVal) : PyVal :=
  .dict [("yes", yes), ("no", no)]

/-- `formatBookSide` on a well-formed side record reduces to the two
display sorts followed by rendering. -/
theorem formatBookSide_mkSide (m t mo : PyVal) (B A : List PyVal) :
    formatBookSide (mkSide m t mo B A) =
      (do
        let bids ← sortOrdersBy true B
        let bidLines ← renderOrders bids
        let asks ← sortOrdersBy false A
        let askLines ← renderOrders asks
        pure (["  - **Market:** `" ++ pyStr m ++ "`",
               "  - **Tick Size:** " ++ pyStr t,
               "  - **Min Order Size:** " ++ pyStr mo,
               "\n  **ðŸŸ¢ Bids (Price | Size):**"]
          ++ (if bids.isEmpty then ["    - No bids"] else [])
          ++ bidLines
          ++ ["\n  **ðŸ”´ Asks (Price | Size):**"]
          ++ (if asks.isEmpty then ["    - No asks"] else [])
          ++ askLines) : Except PyErr (List String)) := rfl

/-- `_format_order_book_text` on a two-sided book reduces to the two
side renderings joined under the fixed headers. -/
theorem format_order_book_mkBook (y n : PyVal) :
    _format_order_book_text (mkBook y n) =
      (do
        let ys ← formatBookSide y
        let ns ← formatBookSide n
        pure (.str (String.intercalate "\n"
          (["**ðŸ“– Order Book Summary:**\n"]
            ++ ["**--- YES Outcome ---**"] ++ ys
            ++ ["**--- NO Outcome ---**"] ++ ns))) : Except PyErr PyVal) := rfl

/-- C8 (amended): the order-book formatter re-derives the display order
at format time — rendered bids are sorted by price descending, rendered
asks by price ascending, whatever order the upstream returned; and for
books whose bid/ask prices are pairwise distinct, the same multiset of
bids and asks presented in any input order yields the same display.
(With tied prices the stable sort keeps input order, so the display can
differ — see the counterexample.) -/
theorem C8_order_book_display :
    (∀ (xs l : List PyVal), sortOrdersBy true xs = .ok l →
      List.Perm l xs ∧ List.Pairwise (fun x y => ∀ px py,
        priceOf x = .ok px → priceOf y = .ok py → py ≤ px) l)
    ∧ (∀ (xs l : List PyVal), sortOrdersBy false xs = .ok l →
      List.Perm l xs ∧ List.Pairwise (fun x y => ∀ px py,
        priceOf x = .ok px → priceOf y = .ok py → px ≤ py) l)
    ∧ (∀ (my mt mm ny nt nm : PyVal) (yb yb' ya ya' nb nb' na na' : List PyVal),
        List.Perm yb yb' → List.Perm ya ya' → List.Perm nb nb' → List.Perm na na' →
        pricesDistinct yb → pricesDistinct ya → pricesDistinct nb → pricesDistinct na →
        _format_order_book_text (mkBook (mkSide my mt mm yb ya) (mkSide ny nt nm nb na)) =
          _format_order_book_text (mkBook (mkSide my mt mm yb' ya') (mkSide ny nt nm nb' na'))) := by
  have hmain : ∀ (desc : Bool) (xs l : List PyVal), sortOrdersBy desc xs = .ok l →
      ∃ ks, keyedPrices xs = .ok ks ∧
        l = (if desc then sortDescBy (·.1) ks else sortAscBy (·.1) ks).map (·.2) := by
    intro desc xs l h
    rcases hk : keyedPrices xs with e | ks
    · rw [sortOrdersBy, hk] at h; cases h
    · refine ⟨ks, rfl, ?_⟩
      rw [sortOrdersBy_eq_of_ok desc xs ks hk] at h
      injection h with h
      exact h.symm
  have hperm : ∀ (desc : Bool) (xs l : List PyVal), sortOrdersBy desc xs = .ok l →
      List.Perm l xs := by
    intro desc xs l h
    obtain ⟨ks, hk, hl⟩ := hmain desc xs l h
    obtain ⟨hks, -⟩ := keyedPrices_ok xs ks hk
    have hsnd : ks.map Prod.snd = xs := by
      rw [hks, List.map_map]
      have hcomp : (Prod.snd ∘ fun x : PyVal => (priceVal x, x)) = id := rfl
      rw [hcomp, List.map_id]
    rcases desc with _ | _
    · subst hl
      simpa using ((sortAscBy_perm (·.1) ks).map Prod.snd).trans (hsnd ▸ List.Perm.refl _)
    · subst hl
      simpa using ((sortDescBy_perm (·.1) ks).map Prod.snd).trans (hsnd ▸ List.Perm.refl _)
  have hall : ∀ (desc : Bool) (xs l : List PyVal), sortOrdersBy desc xs = .ok l →
      ∀ x ∈ l, priceOf x = .ok (priceVal x) := by
    intro desc xs l h x hx
    obtain ⟨ks, hk, -⟩ := hmain desc xs l h
    obtain ⟨-, hall'⟩ := keyedPrices_ok xs ks hk
    exact hall' x ((hperm desc xs l h).subset hx)
  refine ⟨?_, ?_, ?_⟩
  · intro xs l h
    refine ⟨hperm true xs l h, ?_⟩
    obtain ⟨ks, hk, hl⟩ := hmain true xs l h
    obtain ⟨hks, hallk⟩ := keyedPrices_ok xs ks hk
    have hsort : List.Sorted (fun a b : ℚ × PyVal => b.1 ≤ a.1) (sortDescBy (·.1) ks) :=
      sortDescBy_sorted _ ks
    have hmem : ∀ kx ∈ sortDescBy (·.1) ks, priceOf kx.2 = .ok kx.1 := by
      intro kx hkx
      have hin : kx ∈ ks := (sortDescBy_perm (·.1) ks).subset hkx
      rw [hks] at hin
      obtain ⟨x, hx, rfl⟩ := List.mem_map.mp hin
      simpa using hallk x hx
    subst hl
    rw [if_pos rfl]
    rw [List.pairwise_map]
    refine (hsort.imp_of_mem ?_)
    intro a b ha hb hba px py hpa hpb
    rw [hmem a ha] at hpa
    rw [hmem b hb] at hpb
    injection hpa with hpa
    injection hpb with hpb
    rw [← hpa, ← hpb]
    exact hba
  · intro xs l h
    refine ⟨hperm false xs l h, ?_⟩
    obtain ⟨ks, hk, hl⟩ := hmain false xs l h
    obtain ⟨hks, hallk⟩ := keyedPrices_ok xs ks hk
    have hsort : List.Sorted (fun a b : ℚ × PyVal => a.1 ≤ b.1) (sortAscBy (·.1) ks) :=
      sortAscBy_sorted _ ks
    have hmem : ∀ kx ∈ sortAscBy (·.1) ks, priceOf kx.2 = .ok kx.1 := by
      intro kx hkx
      have hin : kx ∈ ks := (sortAscBy_perm (·.1) ks).subset hkx
      rw [hks] at hin
      obtain ⟨x, hx, rfl⟩ := List.mem_map.mp hin
      simpa using hallk x hx
    subst hl
    rw [if_neg (by decide)]
    rw [List.pairwise_map]
    refine (hsort.imp_of_mem ?_)
    intro a b ha hb hba px py hpa hpb
    rw [hmem a ha] at hpa
    rw [hmem b hb] at hpb
    injection hpa with hpa
    injection hpb with hpb
    rw [← hpa, ← hpb]
    exact hba
  · intro my mt mm ny nt nm yb yb' ya ya' nb nb' na na'
      hyb hya hnb hna hdyb hdya hdnb hdna
    have hB := sortOrdersBy_perm_eq true yb yb' hyb hdyb
    have hA := sortOrdersBy_perm_eq false ya ya' hya hdya
    have hB2 := sortOrdersBy_perm_eq true nb nb' hnb hdnb
    have hA2 := sortOrdersBy_perm_eq false na na' hna hdna
    rw [format_order_book_mkBook, format_order_book_mkBook,
      formatBookSide_mkSide, formatBookSide_mkSide,
      formatBookSide_mkSide, formatBookSide_mkSide, hB, hA, hB2, hA2]

/-- Two bids with the same price `1` and different sizes. -/
def cbidA : PyVal := .dict [("price", .int 1), ("size", .int 1)]

/-- See `cbidA`. -/
def cbidB : PyVal := .dict [("price", .int 1), ("size", .int 2)]

/-- A side with the given bids and no asks. -/
def cside (bids : List PyVal) : PyVal :=
  mkSide (.str "m") (.str "t") (.str "s") bids []

/-- The tie-price book and its bid-permuted variant. -/
def cbook1 : PyVal := mkBook (cside [cbidA, cbidB]) (cside [])

/-- See `cbook1`. -/
def cbook2 : PyVal := mkBook (cside [cbidB, cbidA]) (cside [])

set_option maxRecDepth 8000 in
/-- Counterexample to C8 as stated: the two books hold the same multiset
of bids (a transposition of two bids tied at price 1 with sizes 1 and 2),
yet the formatter renders them differently — Python's stable sort keeps
the input order of tied prices, so "the same multiset in any input order
yields the same sorted display" fails. -/
theorem C8_counterexample :
    List.Perm [cbidA, cbidB] [cbidB, cbidA] ∧
    _format_order_book_text cbook1 ≠ _format_order_book_text cbook2 := by
  refine ⟨List.Perm.swap _ _ _, ?_⟩
  have h1 : formatFix2 1 = "1.00" := by
    have hr : roundHalfEven ((1 : ℚ) * 100) = 100 := by
      unfold roundHalfEven; norm_num
    unfold formatFix2
    rw [hr]
    rfl
  have h2 : formatFix2 2 = "2.00" := by
    have hr : roundHalfEven ((2 : ℚ) * 100) = 200 := by
      unfold roundHalfEven; norm_num
    unfold formatFix2
    rw [hr]
    rfl
  have e1 : _format_order_book_text cbook1 = .ok (.str (String.intercalate "\n"
      ["**ðŸ“– Order Book Summary:**\n",
       "**--- YES Outcome ---**",
       ("  - **Market:** `" ++ pyStr (.str "m") ++ "`"), ("  - **Tick Size:** " ++ pyStr (.str "t")), ("  - **Min Order Size:** " ++ pyStr (.str "s")),
       "\n  **ðŸŸ¢ Bids (Price | Size):**",
       "    - `$" ++ formatFix2 1 ++ "` | `" ++ formatFix2 1 ++ "`",
       "    - `$" ++ formatFix2 1 ++ "` | `" ++ formatFix2 2 ++ "`",
       "\n  **ðŸ”´ Asks (Price | Size):**", "    - No asks",
       "**--- NO Outcome ---**",
       ("  - **Market:** `" ++ pyStr (.str "m") ++ "`"), ("  - **Tick Size:** " ++ pyStr (.str "t")), ("  - **Min Order Size:** " ++ pyStr (.str "s")),
       "\n  **ðŸŸ¢ Bids (Price | Size):**", "    - No bids",
       "\n  **ðŸ”´ Asks (Price | Size):**", "    - No asks"])) := rfl
  have e2 : _format_order_book_text cbook2 = .ok (.str (String.intercalate "\n"
      ["**ðŸ“– Order Book Summary:**\n",
       "**--- YES Outcome ---**",
       ("  - **Market:** `" ++ pyStr (.str "m") ++ "`"), ("  - **Tick Size:** " ++ pyStr (.str "t")), ("  - **Min Order Size:** " ++ pyStr (.str "s")),
       "\n  **ðŸŸ¢ Bids (Price | Size):**",
       "    - `$" ++ formatFix2 1 ++ "` | `" ++ formatFix2 2 ++ "`",
       "    - `$" ++ formatFix2 1 ++ "` | `" ++ formatFix2 1 ++ "`",
       "\n  **ðŸ”´ Asks (Price | Size):**", "    - No asks",
       "**--- NO Outcome ---**",
       ("  - **Market:** `" ++ pyStr (.str "m") ++ "`"), ("  - **Tick Size:** " ++ pyStr (.str "t")), ("  - **Min Order Size:** " ++ pyStr (.str "s")),
       "\n  **ðŸŸ¢ Bids (Price | Size):**", "    - No bids",
       "\n  **ðŸ”´ Asks (Price | Size):**", "    - No asks"])) := rfl
  have hstr : ∀ s : String, pyStr (.str s) = s := fun s => by simp [pyStr]
  rw [h1, h2, hstr, hstr, hstr] at e1 e2
  intro heq
  rw [e1, e2] at heq
  injection heq with heq
  injection heq with heq
  exact absurd heq (by decide)

/-- Two bids with distinct prices 1 and 2, for the C8 witness. -/
def wbidA : PyVal := .dict [("price", .int 1), ("size", .int 1)]

/-- See `wbidA`. -/
def wbidB : PyVal := .dict [("price", .int 2), ("size", .int 2)]

/-- Witness for C8 at concrete inputs: a sorted singleton, and display
invariance for a transposition of two distinct-price bids. -/
theorem C8_witness :
    (List.Perm [wbidA] [wbidA] ∧ List.Pairwise (fun x y => ∀ px py,
        priceOf x = .ok px → priceOf y = .ok py → py ≤ px) [wbidA]) ∧
    _format_order_book_text
        (mkBook (mkSide (.str "m") (.str "t") (.str "s") [wbidA, wbidB] [])
          (mkSide (.str "m") (.str "t") (.str "s") [] [])) =
      _format_order_book_text
        (mkBook (mkSide (.str "m") (.str "t") (.str "s") [wbidB, wbidA] [])
          (mkSide (.str "m") (.str "t") (.str "s") [] [])) := by
  constructor
  · exact C8_order_book_display.1 [wbidA] [wbidA] rfl
  · refine C8_order_book_display.2.2 (.str "m") (.str "t") (.str "s") (.str "m") (.str "t")
      (.str "s") [wbidA, wbidB] [wbidB, wbidA] [] [] [] [] [] []
      (List.Perm.swap _ _ _) (List.Perm.refl _) (List.Perm.refl _) (List.Perm.refl _)
      ⟨[(1, wbidA), (2, wbidB)], rfl, ?_⟩ ⟨[], rfl, by simp⟩ ⟨[], rfl, by simp⟩
      ⟨[], rfl, by simp⟩
    norm_num
